import Mathlib

/-!
Verification development for the rlox repository: a tree-walking
interpreter (crates jlox / treewalk) and a bytecode compiler plus stack
VM (crate bytecode) for a small dynamic language.

The Rust sources are shallowly embedded: pure functions become Lean
functions, stateful code becomes explicit state passing, loops become
fuel-indexed recursion.  Machine floats (f64) are modelled by exact
rationals extended with the IEEE special values; every number occurring
in the programs studied here is a small integer, on which binary64
arithmetic is exact, so the model agrees with the Rust semantics on all
evaluations performed below.
-/

set_option maxRecDepth 4096

deriving instance DecidableEq for Except

/-- Model of Rust f64: exact rationals plus the IEEE special values.
Negative zero is not distinguished from zero (the embedded programs never
produce it). -/
inductive F64 where
  | finite (q : Rat)
  | inf
  | negInf
  | nan
deriving DecidableEq, Repr

namespace F64

/-- IEEE addition, exact on finite values. -/
def add : F64 → F64 → F64
  | finite a, finite b => finite (a + b)
  | nan, _ => nan
  | _, nan => nan
  | inf, negInf => nan
  | negInf, inf => nan
  | inf, _ => inf
  | _, inf => inf
  | negInf, _ => negInf
  | _, negInf => negInf

/-- IEEE subtraction, exact on finite values. -/
def sub : F64 → F64 → F64
  | finite a, finite b => finite (a - b)
  | nan, _ => nan
  | _, nan => nan
  | inf, inf => nan
  | negInf, negInf => nan
  | inf, _ => inf
  | negInf, _ => negInf
  | finite _, inf => negInf
  | finite _, negInf => inf

/-- IEEE multiplication, exact on finite values. -/
def mul : F64 → F64 → F64
  | finite a, finite b => finite (a * b)
  | nan, _ => nan
  | _, nan => nan
  | inf, inf => inf
  | inf, negInf => negInf
  | negInf, inf => negInf
  | negInf, negInf => inf
  | inf, finite b => if b = 0 then nan else if 0 < b then inf else negInf
  | finite a, inf => if a = 0 then nan else if 0 < a then inf else negInf
  | negInf, finite b => if b = 0 then nan else if 0 < b then negInf else inf
  | finite a, negInf => if a = 0 then nan else if 0 < a then negInf else inf

/-- IEEE division: finite by zero gives a signed infinity, zero by zero
gives NaN; finite quotients are exact. -/
def div : F64 → F64 → F64
  | finite a, finite b =>
      if b = 0 then
        if a = 0 then nan else if 0 < a then inf else negInf
      else finite (a / b)
  | nan, _ => nan
  | _, nan => nan
  | inf, inf => nan
  | inf, negInf => nan
  | negInf, inf => nan
  | negInf, negInf => nan
  | inf, finite b => if 0 ≤ b then inf else negInf
  | negInf, finite b => if 0 ≤ b then negInf else inf
  | finite _, inf => finite 0
  | finite _, negInf => finite 0

/-- IEEE negation. -/
def neg : F64 → F64
  | finite a => finite (-a)
  | inf => negInf
  | negInf => inf
  | nan => nan

/-- IEEE equality: NaN is not equal to anything, including itself. -/
def beq : F64 → F64 → Bool
  | finite a, finite b => a = b
  | inf, inf => true
  | negInf, negInf => true
  | _, _ => false

/-- IEEE strict less-than: false whenever an operand is NaN. -/
def blt : F64 → F64 → Bool
  | finite a, finite b => a < b
  | nan, _ => false
  | _, nan => false
  | negInf, negInf => false
  | negInf, _ => true
  | _, negInf => false
  | inf, _ => false
  | finite _, inf => true

/-- IEEE strict greater-than. -/
def bgt (a b : F64) : Bool := blt b a

/-- Rust PartialOrd::partial_cmp on f64: none when either side is NaN. -/
def cmpF : F64 → F64 → Option Ordering
  | nan, _ => none
  | _, nan => none
  | a, b =>
      if beq a b then some Ordering.eq
      else if blt a b then some Ordering.lt
      else some Ordering.gt

/-- True exactly for finite values with zero fractional part
(Rust f64::fract() == 0.0). -/
def isIntegral : F64 → Bool
  | finite q => q.den = 1
  | _ => false

/-- Decimal digits of a rational in [0,1) by long division, used for the
Display embeddings; 17 digits suffice for every value representable in
binary64 that the embedded programs print. -/
def fracDigits : Nat → Rat → String
  | 0, _ => ""
  | n + 1, q =>
      if q = 0 then ""
      else
        let q10 := q * 10
        let d := q10.floor.toNat
        toString d ++ fracDigits n (q10 - q10.floor)

/-- Rust Debug formatting of f64 (used by the bytecode Display for
Number): integral values print with a trailing .0, infinity prints inf. -/
def debugFmt : F64 → String
  | finite q =>
      let sign := if q < 0 then "-" else ""
      let a := |q|
      let ipart := toString a.floor.toNat
      let f := a - a.floor
      if f = 0 then sign ++ ipart ++ ".0"
      else sign ++ ipart ++ "." ++ fracDigits 17 f
  | inf => "inf"
  | negInf => "-inf"
  | nan => "NaN"

/-- Rust i64 Display of the truncation of an integral f64, used by the
treewalk Display for Number when fract() == 0.0. -/
def intFmt : F64 → String
  | finite q => toString q.floor
  | inf => toString (0 : Int)
  | negInf => toString (0 : Int)
  | nan => toString (0 : Int)

/-- Read leading decimal digits into an accumulator, returning the
value and the rest. -/
def readDigits : List Char → Nat → Nat × List Char
  | [], acc => (acc, [])
  | c :: cs, acc =>
      if c.isDigit then readDigits cs (acc * 10 + (c.toNat - 48))
      else (acc, c :: cs)

/-- Parse a numeric lexeme (digits, optionally a dot and digits), as
str::parse::<f64> does on lexemes produced by the scanners; exact since
such lexemes denote decimal rationals, all of which in the embedded
programs are small integers representable in binary64. -/
def parseLexeme (s : String) : F64 :=
  let (ip, rest) := readDigits s.toList 0
  match rest with
  | '.' :: fracPart =>
      let (fp, fracRest) := readDigits fracPart 0
      let n := fracPart.length - fracRest.length
      finite ((ip : Rat) + (fp : Rat) / ((10 : Rat) ^ n))
  | _ => finite ((ip : Rat))

end F64

namespace BC

/-- Runtime values of the bytecode crate (bytecode/src/value.rs).  The
Rust Rc of String is immutable shared data, modelled by String. -/
inductive Value where
  | number (n : F64)
  | bool (b : Bool)
  | constString (s : String)
  | stringV (s : String)
  | nil
deriving DecidableEq, Repr

namespace Value

/-- Value::is_truthy (value.rs lines 78-81): the body is
matches!(self, Value::Bool(false) | Value::Nil), which is true exactly on
the FALSY values. -/
def is_truthy : Value → Bool
  | bool false => true
  | nil => true
  | _ => false

/-- Display for Value (value.rs lines 89-99); Number uses the Debug
format of f64. -/
def display : Value → String
  | number d => F64.debugFmt d
  | nil => "Nil"
  | bool b => if b then "true" else "false"
  | constString s => s
  | stringV s => s

/-- Value::negate; the source panics on a non-Number, signalled here by
none (the VM guards every call with a Number check). -/
def negate : Value → Option Value
  | number x => some (number (F64.neg x))
  | _ => none

/-- Value::add (value.rs lines 32-41): numbers add; a String or
ConstString on either side concatenates through Display. -/
def add : Value → Value → Option Value
  | number a, number b => some (number (F64.add a b))
  | stringV a, b => some (stringV (a ++ display b))
  | a, stringV b => some (stringV (display a ++ b))
  | constString a, b => some (stringV (a ++ display b))
  | a, constString b => some (stringV (display a ++ b))
  | _, _ => none

/-- Value::subtract. -/
def subtract : Value → Value → Option Value
  | number a, number b => some (number (F64.sub a b))
  | _, _ => none

/-- Value::multiply. -/
def multiply : Value → Value → Option Value
  | number a, number b => some (number (F64.mul a b))
  | _, _ => none

/-- Value::divide (value.rs lines 57-62): plain f64 division, with no
zero check. -/
def divide : Value → Value → Option Value
  | number a, number b => some (number (F64.div a b))
  | _, _ => none

/-- Value::greater. -/
def greater : Value → Value → Option Value
  | number a, number b => some (bool (F64.bgt a b))
  | _, _ => none

/-- Value::less. -/
def less : Value → Value → Option Value
  | number a, number b => some (bool (F64.blt a b))
  | _, _ => none

/-- The derived PartialEq on Value: different variants are never equal
(in particular ConstString never equals String); numbers compare with
IEEE equality. -/
def beq : Value → Value → Bool
  | number a, number b => F64.beq a b
  | bool a, bool b => a = b
  | constString a, constString b => a = b
  | stringV a, stringV b => a = b
  | nil, nil => true
  | _, _ => false

/-- Modelled from the spec: Value::as_str is called by the VM on the
constant-pool entry named by a global opcode (the method itself is not in
the provided sources; per the spec, DefineGlobal reads
pool[idx].string).  Both string variants yield their contents; the VM
only ever applies it to name constants, which the compiler stores as
ConstString. -/
def as_str : Value → String
  | constString s => s
  | stringV s => s
  | _ => ""

/-- The truthiness the spec defines: Nil and Bool(false) are falsy,
everything else is truthy.  Stated from the spec for comparison with
is_truthy above. -/
def specTruthy : Value → Bool
  | nil => false
  | bool false => false
  | _ => true

end Value

/-- OpCode (bytecode/src/chunk.rs). -/
inductive OpCode where
  | ret
  | constant
  | constantLong
  | negate
  | add
  | subtract
  | multiply
  | divide
  | nil
  | true_
  | false_
  | not_
  | equal
  | greater
  | less
  | print
  | pop
  | defineGlobal
  | getGlobal
  | setGlobal
  | unknown
deriving DecidableEq, Repr

namespace OpCode

/-- From u8 for OpCode (chunk.rs lines 29-55). -/
def ofByte : Nat → OpCode
  | 0 => ret
  | 1 => constant
  | 2 => constantLong
  | 3 => negate
  | 4 => add
  | 5 => subtract
  | 6 => multiply
  | 7 => divide
  | 8 => nil
  | 9 => true_
  | 10 => false_
  | 11 => not_
  | 12 => equal
  | 13 => greater
  | 14 => less
  | 15 => print
  | 16 => pop
  | 17 => defineGlobal
  | 18 => getGlobal
  | 19 => setGlobal
  | _ => unknown

/-- From OpCode for u8 (chunk.rs lines 57-83). -/
def toByte : OpCode → Nat
  | ret => 0
  | constant => 1
  | constantLong => 2
  | negate => 3
  | add => 4
  | subtract => 5
  | multiply => 6
  | divide => 7
  | nil => 8
  | true_ => 9
  | false_ => 10
  | not_ => 11
  | equal => 12
  | greater => 13
  | less => 14
  | print => 15
  | pop => 16
  | defineGlobal => 17
  | getGlobal => 18
  | setGlobal => 19
  | unknown => 255

end OpCode

/-- long_index (chunk.rs line 117): big-endian pair of bytes. -/
def long_index (idxTop idxBot : Nat) : Nat := idxTop * 256 + idxBot

/-- break_index (chunk.rs line 121): split an index into two bytes. -/
def break_index (idx : Nat) : Nat × Nat := (idx / 256 % 256, idx % 256)

/-- Chunk (chunk.rs): byte buffer, constant pool, per-byte line array. -/
structure Chunk where
  code : List Nat
  constants : List Value
  lines : List Nat
deriving DecidableEq, Repr

namespace Chunk

/-- Chunk::new. -/
def new : Chunk := ⟨[], [], []⟩

/-- Chunk::write: append one byte and its source line. -/
def write (c : Chunk) (byte : Nat) (line : Nat) : Chunk :=
  { c with code := c.code ++ [byte], lines := c.lines ++ [line] }

/-- Chunk::add_constant: push the value, return its index. -/
def add_constant (c : Chunk) (v : Value) : Nat × Chunk :=
  (c.constants.length, { c with constants := c.constants ++ [v] })

/-- Chunk::write_constant (chunk.rs lines 155-166): short Constant form
for indices below 256, two-byte big-endian ConstantLong otherwise. -/
def write_constant (c : Chunk) (v : Value) (line : Nat) : Chunk :=
  let (constIdx, c) := c.add_constant v
  if constIdx < 256 then
    (c.write (OpCode.constant.toByte) line).write constIdx line
  else
    let (top, bot) := break_index constIdx
    ((c.write (OpCode.constantLong.toByte) line).write top line).write bot line

/-- Chunk::read_constant; the Rust index panics out of bounds, which the
VM model reports as a crash before calling this. -/
def read_constant (c : Chunk) (index : Nat) : Value :=
  c.constants.getD index Value.nil

end Chunk

end BC

namespace BC

/-- TokenType of the bytecode scanner (bytecode/src/scan.rs). -/
inductive TokenType where
  | leftParen
  | rightParen
  | leftBrace
  | rightBrace
  | comma
  | dot
  | minus
  | plus
  | semicolon
  | slash
  | star
  | bang
  | bangEqual
  | equal
  | equalEqual
  | greater
  | greaterEqual
  | less
  | lessEqual
  | identifier
  | stringTok
  | number
  | kwAnd
  | kwClass
  | kwElse
  | kwFalse
  | kwFor
  | kwFun
  | kwIf
  | kwNil
  | kwOr
  | kwPrint
  | kwReturn
  | kwSuper
  | kwThis
  | kwTrue
  | kwVar
  | kwWhile
  | error
  | eof
deriving DecidableEq, Repr

/-- Token (scan.rs): type, borrowed lexeme, line. -/
structure Token where
  ttype : TokenType
  lexeme : String
  line : Nat
deriving DecidableEq, Repr

/-- Scanner state (scan.rs): the source bytes with start/current cursors
and the current line.  The source is ASCII, modelled as a character
list. -/
structure Scanner where
  source : List Char
  start : Nat
  current : Nat
  line : Nat
deriving Repr

namespace Scanner

/-- Scanner::new. -/
def new (source : String) : Scanner := ⟨source.toList, 0, 0, 1⟩

/-- The token! macro: slice the source from start to current. -/
def mkToken (s : Scanner) (ttype : TokenType) : Token :=
  ⟨ttype, String.mk ((s.source.drop s.start).take (s.current - s.start)), s.line⟩

/-- The error_token! macro. -/
def mkError (s : Scanner) (message : String) : Token :=
  ⟨TokenType.error, message, s.line⟩

/-- Scanner::is_at_end. -/
def is_at_end (s : Scanner) : Bool := s.current = s.source.length

/-- Read the byte at an absolute position; Rust would panic out of
bounds, all embedded runs stay in bounds. -/
def byteAt (s : Scanner) (i : Nat) : Char := s.source.getD i (Char.ofNat 0)

/-- Scanner::advance: consume and return the current character. -/
def advance (s : Scanner) : Char × Scanner :=
  (s.byteAt s.current, { s with current := s.current + 1 })

/-- Scanner::match_advance (scan.rs lines 201-211), embedded exactly as
written: when the next character EQUALS the probe it returns false
without consuming, and when it DIFFERS it consumes it and returns
true. -/
def match_advance (s : Scanner) (c : Char) : Bool × Scanner :=
  if s.is_at_end then (false, s)
  else if s.byteAt s.current = c then (false, s)
  else (true, { s with current := s.current + 1 })

/-- Scanner::peek; Rust panics at end of input, modelled as NUL (no
embedded run peeks past the end except where noted). -/
def peek (s : Scanner) : Char := s.byteAt s.current

/-- Scanner::peek_next. -/
def peek_next (s : Scanner) : Char :=
  if s.is_at_end then Char.ofNat 0 else s.byteAt (s.current + 1)

/-- Loop body of Scanner::string, by fuel on the remaining input. -/
def stringLoop : Nat → Scanner → Scanner
  | 0, s => s
  | fuel + 1, s =>
      if s.peek ≠ '"' ∧ ¬ s.is_at_end then
        let s := if s.peek = '\n' then { s with current := s.current + 1 } else s
        stringLoop fuel (s.advance).2
      else s

/-- Scanner::string. -/
def stringTk (s : Scanner) : Token × Scanner :=
  let s := stringLoop (s.source.length + 1) s
  if s.is_at_end then (s.mkError "Unterminated string", s)
  else
    let s := (s.advance).2
    (s.mkToken TokenType.stringTok, s)

/-- Scanner::skip_whitespace, by fuel on the remaining input; the slash
arm only skips line comments introduced by two slashes. -/
def skip_whitespace : Nat → Scanner → Scanner
  | 0, s => s
  | fuel + 1, s =>
      if s.is_at_end then s
      else
        let c := s.peek
        if c = ' ' ∨ c = '\t' ∨ c = '\r' then
          skip_whitespace fuel (s.advance).2
        else if c = '\n' then
          skip_whitespace fuel ((({ s with line := s.line + 1 } : Scanner)).advance).2
        else if c = '/' then
          if s.peek_next = '/' then
            skip_whitespace fuel (lineComment fuel s)
          else s
        else s
where
  /-- The inner while of the comment arm: advance to the newline. -/
  lineComment : Nat → Scanner → Scanner
    | 0, s => s
    | fuel + 1, s =>
        if s.peek ≠ '\n' ∧ ¬ s.is_at_end then lineComment fuel (s.advance).2
        else s

/-- The digit loops of Scanner::number. -/
def digitLoop : Nat → Scanner → Scanner
  | 0, s => s
  | fuel + 1, s =>
      if (s.peek).isDigit then digitLoop fuel (s.advance).2 else s

/-- Scanner::number: digits, then optionally a dot and more digits. -/
def numberTk (s : Scanner) : Token × Scanner :=
  let s := digitLoop (s.source.length + 1) s
  let s :=
    if s.peek = '.' then digitLoop (s.source.length + 1) (s.advance).2
    else s
  (s.mkToken TokenType.number, s)

/-- The identifier consumption loop. -/
def identLoop : Nat → Scanner → Scanner
  | 0, s => s
  | fuel + 1, s =>
      let a := s.peek
      if a.isDigit ∨ a.isAlpha ∨ a = '_' then identLoop fuel (s.advance).2
      else s

/-- Scanner::keyword_if_match. -/
def keyword_if_match (s : Scanner) (start length : Nat) (check : String)
    (ttype : TokenType) : Token :=
  if s.current - s.start = start + length ∧
      (s.source.drop (s.start + start)).take length = check.toList then
    s.mkToken ttype
  else s.mkToken TokenType.identifier

/-- Scanner::identifier: consume the word, then the keyword trie of
scan.rs lines 297-333. -/
def identifierTk (s : Scanner) : Token × Scanner :=
  let s := identLoop (s.source.length + 1) s
  let tok :=
    match s.byteAt s.start with
    | 'a' => s.keyword_if_match 1 2 "nd" TokenType.kwAnd
    | 'c' => s.keyword_if_match 1 4 "lass" TokenType.kwClass
    | 'e' => s.keyword_if_match 1 3 "lse" TokenType.kwElse
    | 'i' => s.keyword_if_match 1 1 "f" TokenType.kwIf
    | 'n' => s.keyword_if_match 1 2 "il" TokenType.kwNil
    | 'o' => s.keyword_if_match 1 1 "r" TokenType.kwOr
    | 'p' => s.keyword_if_match 1 4 "rint" TokenType.kwPrint
    | 'r' => s.keyword_if_match 1 5 "eturn" TokenType.kwReturn
    | 's' => s.keyword_if_match 1 4 "uper" TokenType.kwSuper
    | 'v' => s.keyword_if_match 1 2 "ar" TokenType.kwVar
    | 'w' => s.keyword_if_match 1 4 "hile" TokenType.kwWhile
    | 'f' =>
        if s.current - s.start > 1 then
          match s.byteAt (s.start + 1) with
          | 'a' => s.keyword_if_match 2 3 "lse" TokenType.kwFalse
          | 'o' => s.keyword_if_match 2 1 "r" TokenType.kwFor
          | 'u' => s.keyword_if_match 2 1 "n" TokenType.kwFun
          | _ => s.mkToken TokenType.identifier
        else s.mkToken TokenType.identifier
    | 't' =>
        if s.current - s.start > 1 then
          match s.byteAt (s.start + 1) with
          | 'h' => s.keyword_if_match 2 3 "is" TokenType.kwThis
          | 'r' => s.keyword_if_match 2 1 "ue" TokenType.kwTrue
          | _ => s.mkToken TokenType.identifier
        else s.mkToken TokenType.identifier
    | _ => s.mkToken TokenType.identifier
  (tok, s)

/-- Scanner::scan_token (scan.rs lines 141-194). -/
def scan_token (s : Scanner) : Token × Scanner :=
  let s := skip_whitespace (s.source.length + 1) s
  let s := { s with start := s.current }
  if s.is_at_end then (s.mkToken TokenType.eof, s)
  else
    let (c, s) := s.advance
    match c with
    | '(' => (s.mkToken TokenType.leftParen, s)
    | ')' => (s.mkToken TokenType.rightParen, s)
    | '{' => (s.mkToken TokenType.leftBrace, s)
    | '}' => (s.mkToken TokenType.rightBrace, s)
    | ';' => (s.mkToken TokenType.semicolon, s)
    | ',' => (s.mkToken TokenType.comma, s)
    | '.' => (s.mkToken TokenType.dot, s)
    | '-' => (s.mkToken TokenType.minus, s)
    | '+' => (s.mkToken TokenType.plus, s)
    | '/' => (s.mkToken TokenType.slash, s)
    | '*' => (s.mkToken TokenType.star, s)
    | '!' =>
        let (m, s) := s.match_advance '='
        if m then (s.mkToken TokenType.bangEqual, s)
        else (s.mkToken TokenType.bang, s)
    | '=' =>
        let (m, s) := s.match_advance '='
        if m then (s.mkToken TokenType.equalEqual, s)
        else (s.mkToken TokenType.equal, s)
    | '<' =>
        let (m, s) := s.match_advance '='
        if m then (s.mkToken TokenType.lessEqual, s)
        else (s.mkToken TokenType.less, s)
    | '>' =>
        let (m, s) := s.match_advance '='
        if m then (s.mkToken TokenType.greaterEqual, s)
        else (s.mkToken TokenType.greater, s)
    | '"' => s.stringTk
    | c =>
        if c.isDigit then s.numberTk
        else if c.isAlpha then s.identifierTk
        else if c = '_' then s.identifierTk
        else (s.mkError "Unexpected character", s)

end Scanner

/-- Scan a whole source text into the token sequence the compiler will
consume, ending with the first EoF token (the Rust scanner keeps
producing EoF afterwards). -/
def scanTokens (source : String) : List Token :=
  go (source.length + 1) (Scanner.new source)
where
  go : Nat → Scanner → List Token
    | 0, _ => []
    | fuel + 1, s =>
        let (t, s) := s.scan_token
        if t.ttype = TokenType.eof then [t]
        else t :: go fuel s

end BC

namespace BC

/-- Modelled from the spec: the Precedence enum (the spec lists the
ascending table None, Assignment, Or, And, Equality, Comparison, Term,
Factor, Unary, Call, Primary; its Rust definition lives in scan.rs which
declares it for the compiler but is not part of the provided sources). -/
inductive Precedence where
  | pNone
  | pAssignment
  | pOr
  | pAnd
  | pEquality
  | pComparison
  | pTerm
  | pFactor
  | pUnary
  | pCall
  | pPrimary
deriving DecidableEq, Repr

namespace Precedence

/-- Numeric rank for comparisons of precedences. -/
def rank : Precedence → Nat
  | pNone => 0
  | pAssignment => 1
  | pOr => 2
  | pAnd => 3
  | pEquality => 4
  | pComparison => 5
  | pTerm => 6
  | pFactor => 7
  | pUnary => 8
  | pCall => 9
  | pPrimary => 10

/-- Modelled from the spec: the next higher precedence, used by the
binary infix rule. -/
def next : Precedence → Precedence
  | pNone => pAssignment
  | pAssignment => pOr
  | pOr => pAnd
  | pAnd => pEquality
  | pEquality => pComparison
  | pComparison => pTerm
  | pTerm => pFactor
  | pFactor => pUnary
  | pUnary => pCall
  | pCall => pPrimary
  | pPrimary => pPrimary

/-- Modelled from the spec: assignment is permitted at precedence at
most Assignment. -/
def can_assign (p : Precedence) : Bool := p.rank ≤ pAssignment.rank

end Precedence

/-- Modelled from the spec: the infix precedence of a token type (each
binary operator carries its row of the table; primary and non-infix
tokens have precedence None). -/
def TokenType.precendence : TokenType → Precedence
  | TokenType.minus => Precedence.pTerm
  | TokenType.plus => Precedence.pTerm
  | TokenType.slash => Precedence.pFactor
  | TokenType.star => Precedence.pFactor
  | TokenType.bangEqual => Precedence.pEquality
  | TokenType.equalEqual => Precedence.pEquality
  | TokenType.greater => Precedence.pComparison
  | TokenType.greaterEqual => Precedence.pComparison
  | TokenType.less => Precedence.pComparison
  | TokenType.lessEqual => Precedence.pComparison
  | _ => Precedence.pNone

/-- Parser state of the bytecode compiler (compiler.rs lines 29-35).
The scanner is replaced by the list of tokens it will produce, which is
faithful because scanning never depends on the parser. -/
structure Parser where
  tokens : List Token
  current : Token
  previous : Token
  had_error : Bool
  panic_mode : Bool
deriving Repr

namespace Parser

/-- Token::empty, the initial current/previous. -/
def emptyToken : Token := ⟨TokenType.error, "", 0⟩

/-- The scanner at end of input keeps yielding EoF tokens. -/
def eofToken : Token := ⟨TokenType.eof, "", 0⟩

/-- Pull the next scanner token. -/
def nextToken (p : Parser) : Token × Parser :=
  match p.tokens with
  | [] => (eofToken, p)
  | t :: ts => (t, { p with tokens := ts })

/-- Parser::error (compiler.rs lines 80-97): latch panic_mode, set
had_error; the printed diagnostic is not modelled. -/
def error (p : Parser) : Parser :=
  if p.panic_mode then p
  else { p with panic_mode := true, had_error := true }

/-- Parser::advance (compiler.rs lines 51-61): skip Error tokens,
reporting each, then shift current into previous. -/
def advance (p : Parser) : Parser :=
  let (newCurrent, p) := skipErrors (p.tokens.length + 1) p
  { p with previous := p.current, current := newCurrent }
where
  skipErrors : Nat → Parser → Token × Parser
    | 0, p => (eofToken, p)
    | fuel + 1, p =>
        let (t, p) := p.nextToken
        if t.ttype ≠ TokenType.error then (t, p)
        else skipErrors fuel p.error

/-- Parser::match_token. -/
def match_token (p : Parser) (ttype : TokenType) : Bool × Parser :=
  if p.current.ttype ≠ ttype then (false, p) else (true, p.advance)

/-- Parser::consume. -/
def consume (p : Parser) (ttype : TokenType) : Parser :=
  if p.current.ttype ≠ ttype then p.error else p.advance

/-- Parser::new: prime the pump with one advance. -/
def new (tokens : List Token) : Parser :=
  Parser.advance ⟨tokens, emptyToken, emptyToken, false, false⟩

/-- Parser::number: parse the previous lexeme and write the constant. -/
def number (p : Parser) (chunk : Chunk) : Parser × Chunk :=
  (p, chunk.write_constant (Value.number (F64.parseLexeme p.previous.lexeme))
        p.previous.line)

/-- Parser::string: strip the quotes, write the constant. -/
def stringFn (p : Parser) (chunk : Chunk) : Parser × Chunk :=
  let lexeme := p.previous.lexeme
  let str := String.mk ((lexeme.toList.drop 1).take (lexeme.length - 2))
  (p, chunk.write_constant (Value.constString str) p.previous.line)

/-- The opcode pair of Parser::binary (compiler.rs lines 219-231),
exactly as written: note that LessEqual emits Less then Not and
GreaterEqual emits Greater then Not. -/
def binaryOpcodes : TokenType → Option (OpCode × Option OpCode)
  | TokenType.minus => some (OpCode.subtract, none)
  | TokenType.plus => some (OpCode.add, none)
  | TokenType.star => some (OpCode.multiply, none)
  | TokenType.slash => some (OpCode.divide, none)
  | TokenType.bangEqual => some (OpCode.equal, some OpCode.not_)
  | TokenType.equalEqual => some (OpCode.equal, none)
  | TokenType.greater => some (OpCode.greater, none)
  | TokenType.greaterEqual => some (OpCode.greater, some OpCode.not_)
  | TokenType.less => some (OpCode.less, none)
  | TokenType.lessEqual => some (OpCode.less, some OpCode.not_)
  | _ => none

/-- Parser::synchronize (compiler.rs lines 244-267). -/
def synchronize : Nat → Parser → Parser
  | 0, p => p
  | fuel + 1, p =>
      let p := { p with panic_mode := false }
      loop (fuel + 1) p
where
  loop : Nat → Parser → Parser
    | 0, p => p
    | fuel + 1, p =>
        if p.current.ttype = TokenType.eof then p
        else if p.previous.ttype = TokenType.semicolon then p
        else
          match p.current.ttype with
          | TokenType.kwClass | TokenType.kwFun | TokenType.kwVar
          | TokenType.kwFor | TokenType.kwIf | TokenType.kwWhile
          | TokenType.kwPrint | TokenType.kwReturn => p
          | _ => loop fuel p.advance

mutual

/-- Parser::parse_precedence (compiler.rs lines 125-188): prefix
dispatch on the consumed token, then the infix loop while the current
token binds at least as tightly, then the stray-equals check.  The
mutually recursive compiler functions are embedded with fuel. -/
def parse_precedence : Nat → Precedence → Parser → Chunk → Parser × Chunk
  | 0, _, p, chunk => (p, chunk)
  | fuel + 1, prec, p, chunk =>
      let p := p.advance
      let canAssign := prec.can_assign
      let (p, chunk, failed) :=
        match p.previous.ttype with
        | TokenType.leftParen =>
            let (p, chunk) := parse_precedence fuel Precedence.pAssignment p chunk
            (p.consume TokenType.rightParen, chunk, false)
        | TokenType.minus =>
            let (p, chunk) := parse_precedence fuel Precedence.pUnary p chunk
            (p, chunk.write OpCode.negate.toByte p.previous.line, false)
        | TokenType.bang =>
            let (p, chunk) := parse_precedence fuel Precedence.pUnary p chunk
            (p, chunk.write OpCode.not_.toByte p.previous.line, false)
        | TokenType.number =>
            let (p, chunk) := p.number chunk
            (p, chunk, false)
        | TokenType.stringTok =>
            let (p, chunk) := p.stringFn chunk
            (p, chunk, false)
        | TokenType.kwNil => (p, chunk.write OpCode.nil.toByte p.previous.line, false)
        | TokenType.kwTrue => (p, chunk.write OpCode.true_.toByte p.previous.line, false)
        | TokenType.kwFalse => (p, chunk.write OpCode.false_.toByte p.previous.line, false)
        | TokenType.identifier =>
            let (arg, chunk) := chunk.add_constant (Value.constString p.previous.lexeme)
            let (m, p) := p.match_token TokenType.equal
            if canAssign ∧ m then
              let (p, chunk) := parse_precedence fuel Precedence.pAssignment p chunk
              let chunk := chunk.write OpCode.setGlobal.toByte p.previous.line
              (p, chunk.write (arg % 256) p.previous.line, false)
            else
              let chunk := chunk.write OpCode.getGlobal.toByte p.previous.line
              (p, chunk.write (arg % 256) p.previous.line, false)
        | _ => (p.error, chunk, true)
      if failed then (p, chunk)
      else
        let (p, chunk) := infixLoop fuel prec p chunk
        let (m, p) := p.match_token TokenType.equal
        if canAssign ∧ m then (p.error, chunk) else (p, chunk)

/-- The while loop of parse_precedence: as long as the current token has
infix precedence at least prec, advance and apply the infix rule (the
binary operators; other token types fall through doing nothing). -/
def infixLoop : Nat → Precedence → Parser → Chunk → Parser × Chunk
  | 0, _, p, chunk => (p, chunk)
  | fuel + 1, prec, p, chunk =>
      if prec.rank ≤ p.current.ttype.precendence.rank then
        let p := p.advance
        let (p, chunk) :=
          match binaryOpcodes p.previous.ttype with
          | some (op1, op2) =>
              let op := p.previous.ttype
              let (p, chunk) := parse_precedence fuel op.precendence.next p chunk
              let chunk := chunk.write op1.toByte p.previous.line
              match op2 with
              | some oc => (p, chunk.write oc.toByte p.previous.line)
              | none => (p, chunk)
          | none => (p, chunk)
        infixLoop fuel prec p chunk
      else (p, chunk)

end

end Parser

namespace Parser

/-- Fuel bound used when running the compiler on a token list. -/
def fuelFor (tokens : List Token) : Nat := tokens.length * 8 + 64

/-- Parser::expression: parse at Assignment precedence. -/
def expression (fuel : Nat) (p : Parser) (chunk : Chunk) : Parser × Chunk :=
  parse_precedence fuel Precedence.pAssignment p chunk

/-- Parser::print_statement (compiler.rs lines 238-242). -/
def print_statement (fuel : Nat) (p : Parser) (chunk : Chunk) : Parser × Chunk :=
  let (p, chunk) := expression fuel p chunk
  let p := p.consume TokenType.semicolon
  (p, chunk.write OpCode.print.toByte p.previous.line)

/-- Parser::statement (compiler.rs lines 110-119). -/
def statement (fuel : Nat) (p : Parser) (chunk : Chunk) : Parser × Chunk :=
  let (m, p) := p.match_token TokenType.kwPrint
  if m then print_statement fuel p chunk
  else
    let (p, chunk) := expression fuel p chunk
    let p := p.consume TokenType.semicolon
    (p, chunk.write OpCode.pop.toByte p.previous.line)

/-- Parser::var_declaration (compiler.rs lines 269-284): compile the
value (or Nil), then DefineGlobal with the name-constant index written
as u8, that is reduced modulo 256. -/
def var_declaration (fuel : Nat) (p : Parser) (chunk : Chunk) : Parser × Chunk :=
  let p := p.consume TokenType.identifier
  let name := p.previous.lexeme
  let (m, p) := p.match_token TokenType.equal
  let (p, chunk) :=
    if m then expression fuel p chunk
    else (p, chunk.write OpCode.nil.toByte p.previous.line)
  let p := p.consume TokenType.semicolon
  let (global, chunk) := chunk.add_constant (Value.constString name)
  let chunk := chunk.write OpCode.defineGlobal.toByte p.previous.line
  (p, chunk.write (global % 256) p.previous.line)

/-- Parser::declaration (compiler.rs lines 99-108). -/
def declaration (fuel : Nat) (p : Parser) (chunk : Chunk) : Parser × Chunk :=
  let (m, p) := p.match_token TokenType.kwVar
  let (p, chunk) :=
    if m then var_declaration fuel p chunk
    else statement fuel p chunk
  if p.panic_mode then (p.synchronize fuel, chunk) else (p, chunk)

end Parser

/-- Compiler::compile (compiler.rs lines 11-27): declarations until EoF,
then the final Return; returns the chunk and whether compilation
succeeded (no error). -/
def compile (tokens : List Token) : Bool × Chunk :=
  let p := Parser.new tokens
  let fuel := Parser.fuelFor tokens
  let (p, chunk) := loop fuel p Chunk.new
  let p := p.consume TokenType.eof
  let chunk := chunk.write OpCode.ret.toByte p.previous.line
  (!p.had_error, chunk)
where
  loop : Nat → Parser → Chunk → Parser × Chunk
    | 0, p, chunk => (p, chunk)
    | fuel + 1, p, chunk =>
        let (m, p) := p.match_token TokenType.eof
        if m then (p, chunk)
        else
          let (p, chunk) := p.declaration (Parser.fuelFor p.tokens + 64) chunk
          loop fuel p chunk

/-- The VM error type (bytecode/src/lib.rs). -/
inductive Error where
  | compiler
  | runtime
  | io
deriving DecidableEq, Repr

/-- The state of one VM dispatch loop (vm.rs lines 99-216): value stack
(top first; Rust pushes at the Vec end, peek(i) is the i-th from the
top), globals map, instruction pointer, and the text printed to stdout
so far (the print opcode plus the unconditional trace lines of
ConstantLong, DefineGlobal, GetGlobal and SetGlobal). -/
structure VMState where
  stack : List Value
  globals : List (String × Value)
  ip : Nat
  output : List String
deriving DecidableEq, Repr

/-- HashMap::get on the globals. -/
def globalsGet (g : List (String × Value)) (name : String) : Option Value :=
  (g.find? (fun kv => kv.1 = name)).map Prod.snd

/-- HashMap::insert on the globals (overwrite or add). -/
def globalsInsert (g : List (String × Value)) (name : String) (v : Value) :
    List (String × Value) :=
  if (g.find? (fun kv => kv.1 = name)).isSome then
    g.map (fun kv => if kv.1 = name then (name, v) else kv)
  else g ++ [(name, v)]

/-- Outcome of one iteration of the dispatch loop: continue in a new
state, normal termination at Return, a reported runtime error, or a
crash (a place where the Rust code would panic: stack underflow, an
out-of-bounds read, or the todo on Unknown). -/
inductive StepRes where
  | next (st : VMState)
  | halt (st : VMState)
  | fail (st : VMState)
  | crash
deriving DecidableEq, Repr

/-- One iteration of VMInterpreter::run (vm.rs lines 110-215): read the
byte at ip, decode, execute; ip advances past the whole instruction. -/
def vmStep (chunk : Chunk) (st : VMState) : StepRes :=
  match chunk.code.get? st.ip with
  | none => StepRes.crash
  | some opByte =>
    match OpCode.ofByte opByte with
    | OpCode.ret => StepRes.halt st
    | OpCode.constant =>
        match chunk.code.get? (st.ip + 1) with
        | none => StepRes.crash
        | some idx =>
            if idx < chunk.constants.length then
              StepRes.next { st with
                stack := chunk.read_constant idx :: st.stack,
                ip := st.ip + 2 }
            else StepRes.crash
    | OpCode.constantLong =>
        match chunk.code.get? (st.ip + 1), chunk.code.get? (st.ip + 2) with
        | some top, some bot =>
            let idx := long_index top bot
            if idx < chunk.constants.length then
              let value := chunk.read_constant idx
              StepRes.next { st with
                stack := value :: st.stack,
                ip := st.ip + 3,
                output := st.output ++ [value.display] }
            else StepRes.crash
        | _, _ => StepRes.crash
    | OpCode.negate =>
        match st.stack with
        | [] => StepRes.crash
        | v :: rest =>
            match v with
            | Value.number _ =>
                match v.negate with
                | some w => StepRes.next { st with stack := w :: rest, ip := st.ip + 1 }
                | none => StepRes.crash
            | _ => StepRes.fail st
    | OpCode.add =>
        match st.stack with
        | b :: a :: rest =>
            let noneAreString :=
              !(match b with | Value.stringV _ => true | Value.constString _ => true | _ => false) &&
              !(match a with | Value.stringV _ => true | Value.constString _ => true | _ => false)
            let notBothNumbers :=
              !(match b with | Value.number _ => true | _ => false) ||
              !(match a with | Value.number _ => true | _ => false)
            if noneAreString && notBothNumbers then StepRes.fail st
            else
              match a.add b with
              | some r => StepRes.next { st with stack := r :: rest, ip := st.ip + 1 }
              | none => StepRes.crash
        | _ => StepRes.crash
    | OpCode.subtract => binArith st Value.subtract
    | OpCode.multiply => binArith st Value.multiply
    | OpCode.divide => binArith st Value.divide
    | OpCode.nil => StepRes.next { st with stack := Value.nil :: st.stack, ip := st.ip + 1 }
    | OpCode.true_ =>
        StepRes.next { st with stack := Value.bool true :: st.stack, ip := st.ip + 1 }
    | OpCode.false_ =>
        StepRes.next { st with stack := Value.bool false :: st.stack, ip := st.ip + 1 }
    | OpCode.not_ =>
        match st.stack with
        | [] => StepRes.crash
        | v :: rest =>
            StepRes.next { st with
              stack := Value.bool (!v.is_truthy) :: rest, ip := st.ip + 1 }
    | OpCode.equal =>
        match st.stack with
        | b :: a :: rest =>
            StepRes.next { st with
              stack := Value.bool (a.beq b) :: rest, ip := st.ip + 1 }
        | _ => StepRes.crash
    | OpCode.greater => binArith st Value.greater
    | OpCode.less => binArith st Value.less
    | OpCode.print =>
        match st.stack with
        | [] => StepRes.crash
        | v :: rest =>
            StepRes.next { st with
              stack := rest, ip := st.ip + 1, output := st.output ++ [v.display] }
    | OpCode.pop =>
        match st.stack with
        | [] => StepRes.crash
        | _ :: rest => StepRes.next { st with stack := rest, ip := st.ip + 1 }
    | OpCode.defineGlobal =>
        match chunk.code.get? (st.ip + 1) with
        | none => StepRes.crash
        | some idx =>
            if idx < chunk.constants.length then
              let name := (chunk.read_constant idx).as_str
              match st.stack with
              | [] => StepRes.crash
              | v :: rest =>
                  StepRes.next { st with
                    stack := rest,
                    globals := globalsInsert st.globals name v,
                    ip := st.ip + 2,
                    output := st.output ++ ["Defining: " ++ name] }
            else StepRes.crash
    | OpCode.getGlobal =>
        match chunk.code.get? (st.ip + 1) with
        | none => StepRes.crash
        | some idx =>
            if idx < chunk.constants.length then
              let name := (chunk.read_constant idx).as_str
              let st := { st with output := st.output ++ ["Getting: " ++ name] }
              match globalsGet st.globals name with
              | none => StepRes.fail st
              | some val =>
                  StepRes.next { st with stack := val :: st.stack, ip := st.ip + 2 }
            else StepRes.crash
    | OpCode.setGlobal =>
        match chunk.code.get? (st.ip + 1) with
        | none => StepRes.crash
        | some idx =>
            if idx < chunk.constants.length then
              let name := (chunk.read_constant idx).as_str
              let st := { st with output := st.output ++ ["Checking: " ++ name] }
              match globalsGet st.globals name with
              | none => StepRes.fail st
              | some _ =>
                  match st.stack with
                  | [] => StepRes.crash
                  | v :: _ =>
                      StepRes.next { st with
                        globals := globalsInsert st.globals name v,
                        ip := st.ip + 2,
                        output := st.output ++ ["Setting: " ++ name] }
            else StepRes.crash
    | OpCode.unknown => StepRes.crash
where
  /-- The binary_op! macro: both operands must be numbers, else a
  reported runtime error; then pop b, pop a, push a op b. -/
  binArith (st : VMState) (op : Value → Value → Option Value) : StepRes :=
    match st.stack with
    | b :: a :: rest =>
        match b, a with
        | Value.number _, Value.number _ =>
            match op a b with
            | some r => StepRes.next { st with stack := r :: rest, ip := st.ip + 1 }
            | none => StepRes.crash
        | _, _ => StepRes.fail st
    | _ => StepRes.crash

/-- Iterate vmStep; none means out of fuel. -/
def vmRun : Nat → Chunk → VMState → Option (Except Error VMState)
  | 0, _, _ => none
  | fuel + 1, chunk, st =>
      match vmStep chunk st with
      | StepRes.next st => vmRun fuel chunk st
      | StepRes.halt st => some (Except.ok st)
      | StepRes.fail _ => some (Except.error Error.runtime)
      | StepRes.crash => none

/-- VM::interpret (vm.rs lines 31-38) over a source text: scan, compile,
refuse to run on a failed compile, else run from an empty stack and
globals. -/
def interpret (source : String) : Option (Except Error VMState) :=
  let tokens := scanTokens source
  let (ok, chunk) := compile tokens
  if !ok then some (Except.error Error.compiler)
  else vmRun (chunk.code.length * 4 + 16) chunk ⟨[], [], 0, []⟩

end BC

namespace TW

/-- SourceLocation (treewalk/src/location.rs): line and column. -/
structure SourceLocation where
  line : Nat
  pos : Nat
deriving DecidableEq, Repr

/-- Display for SourceLocation. -/
def SourceLocation.display (l : SourceLocation) : String :=
  "line " ++ toString l.line ++ ":" ++ toString l.pos

/-- TokenType of the tree path (treewalk/src/token.rs). -/
inductive TokenType where
  | leftParen
  | rightParen
  | leftBrace
  | rightBrace
  | comma
  | dot
  | minus
  | plus
  | semicolon
  | slash
  | star
  | bang
  | bangEq
  | equal
  | equalEq
  | greater
  | greaterEq
  | less
  | lessEq
  | kwAnd
  | kwClass
  | kwElse
  | kwFalse
  | kwFun
  | kwFor
  | kwIf
  | kwNil
  | kwOr
  | kwPrint
  | kwReturn
  | kwSuper
  | kwThis
  | kwTrue
  | kwVar
  | kwWhile
  | stringTok
  | number
  | identifier
  | eof
deriving DecidableEq, Repr

mutual

/-- Literal (treewalk/src/token.rs lines 5-17).  A function value keeps
its parameter list, its body and its closure environment; the Rust
Rc of RefCell of Environment is modelled as an index into an explicit
environment heap.  The class of values representable here matches the
source exactly, except that the body is the statement itself rather
than a shared Rc (sharing is an optimisation invisible to evaluation). -/
inductive Literal where
  | function (params : List String) (body : Stmt) (closure : Nat)
  | stringL (s : String)
  | number (n : F64)
  | true_
  | false_
  | nil

/-- Expr (jlox/src/ast.rs = treewalk/src/ast.rs). -/
inductive Expr where
  | binary (location : SourceLocation) (left : Expr) (op : TokenType) (right : Expr)
  | unary (location : SourceLocation) (op : TokenType) (right : Expr)
  | call (location : SourceLocation) (callee : Expr) (arguments : List Expr)
  | literal (location : SourceLocation) (value : Literal)
  | variableE (location : SourceLocation) (name : String)
  | assignment (location : SourceLocation) (name : String) (value : Expr)

/-- Stmt (jlox/src/ast.rs; the treewalk copy adds a Builtin variant
wrapping a native Rust closure, which is not representable in a shallow
embedding and which none of the studied claims involve). -/
inductive Stmt where
  | expression (e : Expr)
  | print (e : Expr)
  | varDecl (name : String) (location : SourceLocation) (init : Option Expr)
  | ifS (condition : Expr) (thenBranch : Stmt) (elseBranch : Option Stmt)
  | whileS (condition : Expr) (body : Stmt)
  | block (stmts : List Stmt)
  | funDecl (name : String) (params : List String) (body : Stmt)
  | ret (val : Expr)

end

/-- TokenItem (treewalk/src/token.rs lines 145-151). -/
structure TokenItem where
  ttype : TokenType
  lexeme : String
  literal : Option Literal
  location : SourceLocation

/-- Literal::is_truthy (treewalk/src/token.rs lines 20-22): Nil and
False are falsy.  Note this is the opposite convention of the bytecode
crate's Value::is_truthy. -/
def Literal.is_truthy : Literal → Bool
  | Literal.nil => false
  | Literal.false_ => false
  | _ => true

/-- From bool for Literal. -/
def Literal.ofBool (b : Bool) : Literal :=
  if b then Literal.true_ else Literal.false_

/-- PartialOrd for Literal (treewalk/src/token.rs lines 25-32): only two
numbers compare. -/
def Literal.cmpL : Literal → Literal → Option Ordering
  | Literal.number a, Literal.number b => F64.cmpF a b
  | _, _ => none

/-- PartialEq for Literal (treewalk/src/token.rs lines 59-72): functions
equal nothing; strings and numbers compare contents; the three atoms
compare by variant. -/
def Literal.eqL : Literal → Literal → Bool
  | Literal.function _ _ _, _ => false
  | _, Literal.function _ _ _ => false
  | Literal.stringL a, Literal.stringL b => a = b
  | Literal.number a, Literal.number b => F64.beq a b
  | Literal.true_, Literal.true_ => true
  | Literal.false_, Literal.false_ => true
  | Literal.nil, Literal.nil => true
  | _, _ => false

/-- Display for Literal (treewalk/src/token.rs lines 40-57): a number
with zero fractional part prints as an i64. -/
def Literal.display : Literal → String
  | Literal.function _ _ _ => "function"
  | Literal.stringL s => s
  | Literal.number n => if n.isIntegral then F64.intFmt n else F64.debugFmt n
  | Literal.true_ => "true"
  | Literal.false_ => "false"
  | Literal.nil => "nil"

/-- Expr::location (ast.rs). -/
def Expr.location : Expr → SourceLocation
  | Expr.binary l _ _ _ => l
  | Expr.unary l _ _ => l
  | Expr.call l _ _ => l
  | Expr.literal l _ => l
  | Expr.variableE l _ => l
  | Expr.assignment l _ _ => l

/-- One environment frame (treewalk/src/environment.rs lines 15-19):
name-to-optional-value bindings plus the parent link, the Rc identity
being an index into the heap of all frames ever created. -/
structure Frame where
  values : List (String × Option Literal)
  parent : Option Nat

/-- The heap of environment frames; Rc-shared mutable environments
become indices into this list. -/
abbrev EnvHeap := List Frame

/-- HashMap lookup inside one frame. -/
def valuesGet (vs : List (String × Option Literal)) (name : String) :
    Option (Option Literal) :=
  (vs.find? (fun kv => kv.1 = name)).map Prod.snd

/-- HashMap insert (overwrite or add) inside one frame. -/
def valuesInsert (vs : List (String × Option Literal)) (name : String)
    (v : Option Literal) : List (String × Option Literal) :=
  if (vs.find? (fun kv => kv.1 = name)).isSome then
    vs.map (fun kv => if kv.1 = name then (name, v) else kv)
  else vs ++ [(name, v)]

/-- Environment::define: unconditional insert in the named frame. -/
def envDefine (heap : EnvHeap) (env : Nat) (name : String)
    (value : Option Literal) : EnvHeap :=
  heap.enum.map
    (fun fi => if fi.1 = env then
        { fi.2 with values := valuesInsert fi.2.values name value }
      else fi.2)

/-- Environment::get (environment.rs lines 55-66): current frame first,
then the parent chain; fuel bounds the chain length (every heap built by
the interpreter has parent indices smaller than the frame index, so heap
length is always enough fuel). -/
def envGet : Nat → EnvHeap → Nat → String → Option (Option Literal)
  | 0, _, _, _ => none
  | fuel + 1, heap, env, name =>
      match heap.get? env with
      | none => none
      | some f =>
          match valuesGet f.values name with
          | some value => some value
          | none =>
              match f.parent with
              | some parent => envGet fuel heap parent name
              | none => none

/-- Environment::get_at (environment.rs lines 40-53): walk exactly depth
parents, erroring if the chain is shorter, then get from there; the
error carries the ResolverError message. -/
def envGetAt : Nat → EnvHeap → Nat → String → Nat → Except Unit (Option Literal)
  | 0, _, _, _, _ => Except.error ()
  | fuel + 1, heap, env, name, depth =>
      if depth > 0 then
        match (heap.get? env).bind Frame.parent with
        | some parent => envGetAt fuel heap parent name (depth - 1)
        | none => Except.error ()
      else
        match envGet (heap.length + 1) heap env name with
        | some v => Except.ok v
        | none => Except.error ()

/-- Environment::update (environment.rs lines 88-102): set the binding
in the first chain frame that contains the name; none when no frame
does. -/
def envUpdate : Nat → EnvHeap → Nat → String → Literal → Option EnvHeap
  | 0, _, _, _, _ => none
  | fuel + 1, heap, env, name, value =>
      match heap.get? env with
      | none => none
      | some f =>
          if (valuesGet f.values name).isSome then
            some (heap.enum.map
              (fun fi => if fi.1 = env then
                  { fi.2 with values := valuesInsert fi.2.values name (some value) }
                else fi.2))
          else
            match f.parent with
            | some parent => envUpdate fuel heap parent name value
            | none => none

/-- Environment::update_at (environment.rs lines 68-86). -/
def envUpdateAt : Nat → EnvHeap → Nat → String → Literal → Nat →
    Except Unit EnvHeap
  | 0, _, _, _, _, _ => Except.error ()
  | fuel + 1, heap, env, name, value, depth =>
      if depth > 0 then
        match (heap.get? env).bind Frame.parent with
        | some parent => envUpdateAt fuel heap parent name value (depth - 1)
        | none => Except.error ()
      else
        match envUpdate (heap.length + 1) heap env name value with
        | some heap => Except.ok heap
        | none => Except.error ()

end TW

namespace TW

/-- Resolver errors (treewalk/src/resolver.rs lines 10-29). -/
inductive RError where
  | accessInInit (name : String) (location : SourceLocation)
  | accessUndefined (name : String) (location : SourceLocation)
  | duplicateVariable (name : String) (location : SourceLocation)
deriving DecidableEq, Repr

/-- The Display messages of the resolver errors, printed by
Resolver::resolve. -/
def RError.render : RError → String
  | RError.accessInInit name location =>
      "Can't read local variable '" ++ name ++ "' in its own initializer at "
        ++ location.display
  | RError.accessUndefined name location =>
      "Access undeclared variable '" ++ name ++ "' at " ++ location.display
  | RError.duplicateVariable name location =>
      "Duplicate variable '" ++ name ++ "' found in scope at " ++ location.display

/-- The resolver scope stack.  The Rust Vec pushes the innermost scope
at the end; here the head of the list is the innermost scope, so push is
cons, pop is tail, and the outside-in search of
scopes.iter().rev().enumerate() is a plain head-first index search. -/
abbrev Scopes := List (List (String × Bool))

/-- The resolver output map from expression locations to depths. -/
abbrev Locals := List (SourceLocation × Nat)

/-- Lookup in one scope. -/
def scopeGet (sc : List (String × Bool)) (name : String) : Option Bool :=
  (sc.find? (fun kv => kv.1 = name)).map Prod.snd

/-- HashMap insert in one scope. -/
def scopeInsert (sc : List (String × Bool)) (name : String) (b : Bool) :
    List (String × Bool) :=
  if (sc.find? (fun kv => kv.1 = name)).isSome then
    sc.map (fun kv => if kv.1 = name then (name, b) else kv)
  else sc ++ [(name, b)]

/-- Insert into the innermost scope (scopes[last] in the source). -/
def scopesInsertTop (scopes : Scopes) (name : String) (b : Bool) : Scopes :=
  match scopes with
  | [] => []
  | top :: rest => scopeInsert top name b :: rest

/-- HashMap insert into the locals map. -/
def localsInsert (ls : Locals) (location : SourceLocation) (d : Nat) : Locals :=
  if (ls.find? (fun kv => kv.1 = location)).isSome then
    ls.map (fun kv => if kv.1 = location then (location, d) else kv)
  else ls ++ [(location, d)]

/-- HashMap get on the locals map. -/
def localsGet (ls : Locals) (location : SourceLocation) : Option Nat :=
  (ls.find? (fun kv => kv.1 = location)).map Prod.snd

/-- The outside-in depth search of resolver.rs lines 62-68: the first
scope (innermost first) containing the name, as a depth. -/
def depthOf (scopes : Scopes) (name : String) : Option Nat :=
  scopes.findIdx? (fun sc => (scopeGet sc name).isSome)

/-- ResolveExpr for Expr (resolver.rs lines 39-115); the scope stack is
only read, the locals map is extended.  An error aborts the statement
being resolved but keeps the map built so far, as the Rust early return
does. -/
def resolveExpr : Nat → Expr → Scopes → Locals → Option RError × Locals
  | 0, _, _, locals => (none, locals)
  | fuel + 1, e, scopes, locals =>
      match e with
      | Expr.binary _ left _ right =>
          match resolveExpr fuel left scopes locals with
          | (some err, locals) => (some err, locals)
          | (none, locals) => resolveExpr fuel right scopes locals
      | Expr.unary _ _ right => resolveExpr fuel right scopes locals
      | Expr.literal _ _ => (none, locals)
      | Expr.variableE location name =>
          match scopeGet (scopes.headD []) name with
          | some false => (some (RError.accessInInit name location), locals)
          | _ =>
              match depthOf scopes name with
              | some depth => (none, localsInsert locals location depth)
              | none => (some (RError.accessUndefined name location), locals)
      | Expr.assignment location name value =>
          match resolveExpr fuel value scopes locals with
          | (some err, locals) => (some err, locals)
          | (none, locals) =>
              match depthOf scopes name with
              | some depth => (none, localsInsert locals location depth)
              | none => (some (RError.accessUndefined name location), locals)
      | Expr.call _ callee arguments =>
          match resolveExpr fuel callee scopes locals with
          | (some err, locals) => (some err, locals)
          | (none, locals) => resolveArgs fuel arguments scopes locals
where
  resolveArgs : Nat → List Expr → Scopes → Locals → Option RError × Locals
    | 0, _, _, locals => (none, locals)
    | _, [], _, locals => (none, locals)
    | fuel + 1, arg :: rest, scopes, locals =>
        match resolveExpr fuel arg scopes locals with
        | (some err, locals) => (some err, locals)
        | (none, locals) => resolveArgs fuel rest scopes locals

/-- ResolveStmt for Stmt (resolver.rs lines 126-199).  The scope stack
is returned in the state it had when the function returned, including
the scopes an early error left pushed. -/
def resolveStmt : Nat → Stmt → Scopes → Locals → Option RError × Scopes × Locals
  | 0, _, scopes, locals => (none, scopes, locals)
  | fuel + 1, s, scopes, locals =>
      match s with
      | Stmt.expression e =>
          let (err, locals) := resolveExpr fuel e scopes locals
          (err, scopes, locals)
      | Stmt.print e =>
          let (err, locals) := resolveExpr fuel e scopes locals
          (err, scopes, locals)
      | Stmt.varDecl name location initOpt =>
          if (scopeGet (scopes.headD []) name).isSome then
            (some (RError.duplicateVariable name location), scopes, locals)
          else
            let scopes := scopesInsertTop scopes name false
            match initOpt with
            | some initE =>
                match resolveExpr fuel initE scopes locals with
                | (some err, locals) => (some err, scopes, locals)
                | (none, locals) => (none, scopesInsertTop scopes name true, locals)
            | none => (none, scopesInsertTop scopes name true, locals)
      | Stmt.ifS condition thenBranch elseBranch =>
          match resolveExpr fuel condition scopes locals with
          | (some err, locals) => (some err, scopes, locals)
          | (none, locals) =>
              match resolveStmt fuel thenBranch scopes locals with
              | (some err, scopes, locals) => (some err, scopes, locals)
              | (none, scopes, locals) =>
                  match elseBranch with
                  | some e => resolveStmt fuel e scopes locals
                  | none => (none, scopes, locals)
      | Stmt.whileS condition body =>
          match resolveExpr fuel condition scopes locals with
          | (some err, locals) => (some err, scopes, locals)
          | (none, locals) => resolveStmt fuel body scopes locals
      | Stmt.block stmts =>
          let scopes := [] :: scopes
          match resolveList fuel stmts scopes locals with
          | (some err, scopes, locals) => (some err, scopes, locals)
          | (none, scopes, locals) => (none, scopes.tail, locals)
      | Stmt.funDecl name params body =>
          let scopes := scopesInsertTop scopes name true
          let scopes := params.foldl (fun sc p => scopesInsertTop sc p true)
            ([] :: scopes)
          match resolveStmt fuel body scopes locals with
          | (some err, scopes, locals) => (some err, scopes, locals)
          | (none, scopes, locals) => (none, scopes.tail, locals)
      | Stmt.ret val =>
          let (err, locals) := resolveExpr fuel val scopes locals
          (err, scopes, locals)
where
  resolveList : Nat → List Stmt → Scopes → Locals → Option RError × Scopes × Locals
    | 0, _, scopes, locals => (none, scopes, locals)
    | _, [], scopes, locals => (none, scopes, locals)
    | fuel + 1, s :: rest, scopes, locals =>
        match resolveStmt fuel s scopes locals with
        | (some err, scopes, locals) => (some err, scopes, locals)
        | (none, scopes, locals) => resolveList fuel rest scopes locals

/-- Fuel big enough for any statement of the studied programs. -/
def rFuel : Nat := 1000

/-- Resolver::resolve (resolver.rs lines 209-220): one global scope with
the clock builtin pre-defined, then each statement resolved in turn;
every error is only PRINTED (the rendered lines are returned alongside
the map) and resolution of later statements continues; the locals map is
returned unconditionally. -/
def resolve (stmts : List Stmt) : Locals × List String :=
  let scopes : Scopes := [scopeInsert [] "clock" true]
  let (_, locals, msgs) :=
    stmts.foldl
      (fun acc s =>
        let (scopes, locals, msgs) := acc
        match resolveStmt rFuel s scopes locals with
        | (some e, scopes, locals) =>
            (scopes, locals, msgs ++ ["Resolver Error: " ++ e.render])
        | (none, scopes, locals) => (scopes, locals, msgs))
      (scopes, ([] : Locals), ([] : List String))
  (locals, msgs)

end TW

namespace TW

/-- Parser errors (treewalk/src/parser.rs lines 10-45). -/
inductive PError where
  | unterminatedParen (location : SourceLocation)
  | expectedSemicolon (location : SourceLocation)
  | unterminatedBrace (location : SourceLocation)
  | expectedToken (expected : String) (stmtType : String) (location : SourceLocation)
  | invalidAssignmentTarget (location : SourceLocation)
  | unexpectedToken (lexeme : String) (location : SourceLocation)
  | tooManyArguments (location : SourceLocation)
  | tooManyParameters (location : SourceLocation)
  | expectedParameterName (location : SourceLocation)
deriving DecidableEq, Repr

/-- The token at an absolute index.  The Rust code indexes the token
slice directly and would panic past the end; parses of well-formed token
lists (ending in EoF) stay in bounds, and the default is never read in
the runs below. -/
def tokAt (tokens : List TokenItem) (cursor : Nat) : TokenItem :=
  tokens.getD cursor ⟨TokenType.eof, "", none, ⟨0, 0⟩⟩

mutual

/-- Parser::statement (parser.rs lines 105-117). -/
def pStatement : Nat → List TokenItem → Nat → (Except PError Stmt) × Nat
  | 0, _, cursor => (Except.error (PError.unexpectedToken "" ⟨0, 0⟩), cursor)
  | fuel + 1, tokens, cursor =>
      match (tokAt tokens cursor).ttype with
      | TokenType.kwPrint => pPrintStmt fuel tokens (cursor + 1)
      | TokenType.kwVar => pVarDecl fuel tokens (cursor + 1)
      | TokenType.leftBrace => pBlock fuel tokens (cursor + 1)
      | TokenType.kwIf => pIfStmt fuel tokens (cursor + 1)
      | TokenType.kwWhile => pWhileStmt fuel tokens (cursor + 1)
      | TokenType.kwFor => pForStmt fuel tokens (cursor + 1)
      | TokenType.kwFun => pFunStmt fuel tokens (cursor + 1)
      | TokenType.kwReturn => pReturnStmt fuel tokens (cursor + 1)
      | _ => pExprStmt fuel tokens cursor

termination_by structural fuel => fuel

/-- Parser::expr_stmt (parser.rs lines 119-131). -/
def pExprStmt : Nat → List TokenItem → Nat → (Except PError Stmt) × Nat
  | 0, _, cursor => (Except.error (PError.unexpectedToken "" ⟨0, 0⟩), cursor)
  | fuel + 1, tokens, cursor =>
      let (expr, cursor) := pExpression fuel tokens cursor
      if (tokAt tokens cursor).ttype = TokenType.semicolon then
        (expr.map Stmt.expression, cursor + 1)
      else
        (Except.error (PError.expectedSemicolon (tokAt tokens cursor).location),
          cursor)

/-- Parser::return_stmt (parser.rs lines 133-154). -/
def pReturnStmt : Nat → List TokenItem → Nat → (Except PError Stmt) × Nat
  | 0, _, cursor => (Except.error (PError.unexpectedToken "" ⟨0, 0⟩), cursor)
  | fuel + 1, tokens, cursor =>
      if (tokAt tokens cursor).ttype = TokenType.semicolon then
        (Except.ok (Stmt.ret
          (Expr.literal (tokAt tokens cursor).location Literal.nil)), cursor + 1)
      else
        let (expr, cursor) := pExpression fuel tokens cursor
        if (tokAt tokens cursor).ttype = TokenType.semicolon then
          (expr.map Stmt.ret, cursor + 1)
        else
          (Except.error (PError.expectedSemicolon (tokAt tokens cursor).location),
            cursor)

/-- Parser::print_stmt (parser.rs lines 156-168); the printed expression
is parsed with equality, not expression. -/
def pPrintStmt : Nat → List TokenItem → Nat → (Except PError Stmt) × Nat
  | 0, _, cursor => (Except.error (PError.unexpectedToken "" ⟨0, 0⟩), cursor)
  | fuel + 1, tokens, cursor =>
      let (expr, cursor) := pEquality fuel tokens cursor
      if (tokAt tokens cursor).ttype = TokenType.semicolon then
        (expr.map Stmt.print, cursor + 1)
      else
        (Except.error (PError.expectedSemicolon (tokAt tokens cursor).location),
          cursor)

/-- Parser::var_decl (parser.rs lines 170-219); the initial value is
parsed with equality. -/
def pVarDecl : Nat → List TokenItem → Nat → (Except PError Stmt) × Nat
  | 0, _, cursor => (Except.error (PError.unexpectedToken "" ⟨0, 0⟩), cursor)
  | fuel + 1, tokens, cursor =>
      if (tokAt tokens cursor).ttype ≠ TokenType.identifier then
        (Except.error (PError.unexpectedToken (tokAt tokens cursor).lexeme
          (tokAt tokens cursor).location), cursor)
      else
        let name := (tokAt tokens cursor).lexeme
        let cursor := cursor + 1
        match (tokAt tokens cursor).ttype with
        | TokenType.semicolon =>
            (Except.ok (Stmt.varDecl name (tokAt tokens cursor).location none),
              cursor + 1)
        | TokenType.equal =>
            let (expr, cursor) := pEquality fuel tokens (cursor + 1)
            if (tokAt tokens cursor).ttype = TokenType.semicolon then
              (expr.map (fun e =>
                Stmt.varDecl name (tokAt tokens cursor).location (some e)),
                cursor + 1)
            else
              (Except.error
                (PError.expectedSemicolon (tokAt tokens cursor).location), cursor)
        | _ =>
            (Except.error (PError.unexpectedToken (tokAt tokens cursor).lexeme
              (tokAt tokens cursor).location), cursor)

/-- Parser::if_stmt (parser.rs lines 221-267). -/
def pIfStmt : Nat → List TokenItem → Nat → (Except PError Stmt) × Nat
  | 0, _, cursor => (Except.error (PError.unexpectedToken "" ⟨0, 0⟩), cursor)
  | fuel + 1, tokens, cursor =>
      if (tokAt tokens cursor).ttype ≠ TokenType.leftParen then
        (Except.error (PError.expectedToken "(" "if"
          (tokAt tokens cursor).location), cursor)
      else
        match pExpression fuel tokens (cursor + 1) with
        | (Except.error e, cursor) => (Except.error e, cursor)
        | (Except.ok condition, cursor) =>
            if (tokAt tokens cursor).ttype ≠ TokenType.rightParen then
              (Except.error (PError.expectedToken ")" "if"
                (tokAt tokens cursor).location), cursor)
            else
              match pStatement fuel tokens (cursor + 1) with
              | (Except.error e, cursor) => (Except.error e, cursor)
              | (Except.ok thenBranch, cursor) =>
                  if (tokAt tokens cursor).ttype = TokenType.kwElse then
                    match pStatement fuel tokens (cursor + 1) with
                    | (Except.error e, cursor) => (Except.error e, cursor)
                    | (Except.ok elseBranch, cursor) =>
                        (Except.ok (Stmt.ifS condition thenBranch
                          (some elseBranch)), cursor)
                  else
                    (Except.ok (Stmt.ifS condition thenBranch none), cursor)

termination_by structural fuel => fuel

/-- Parser::while_stmt (parser.rs lines 269-315); the source checks the
closing parenthesis twice in a row, which is a single observable
check. -/
def pWhileStmt : Nat → List TokenItem → Nat → (Except PError Stmt) × Nat
  | 0, _, cursor => (Except.error (PError.unexpectedToken "" ⟨0, 0⟩), cursor)
  | fuel + 1, tokens, cursor =>
      if (tokAt tokens cursor).ttype ≠ TokenType.leftParen then
        (Except.error (PError.expectedToken "(" "while"
          (tokAt tokens cursor).location), cursor)
      else
        match pExpression fuel tokens (cursor + 1) with
        | (Except.error e, cursor) => (Except.error e, cursor)
        | (Except.ok condition, cursor) =>
            if (tokAt tokens cursor).ttype ≠ TokenType.rightParen then
              (Except.error (PError.expectedToken ")" "while"
                (tokAt tokens cursor).location), cursor)
            else
              match pStatement fuel tokens (cursor + 1) with
              | (Except.error e, cursor) => (Except.error e, cursor)
              | (Except.ok body, cursor) =>
                  (Except.ok (Stmt.whileS condition body), cursor)

termination_by structural fuel => fuel

/-- Parser::for_stmt (parser.rs lines 317-415), embedded exactly as
written; note that in the arm for an expression-statement initializer
the source calls expr_stmt with cursor + 1, one past the token the
expression starts at. -/
def pForStmt : Nat → List TokenItem → Nat → (Except PError Stmt) × Nat
  | 0, _, cursor => (Except.error (PError.unexpectedToken "" ⟨0, 0⟩), cursor)
  | fuel + 1, tokens, cursor =>
      if (tokAt tokens cursor).ttype ≠ TokenType.leftParen then
        (Except.error (PError.expectedToken "(" "for"
          (tokAt tokens cursor).location), cursor)
      else
        let cursor := cursor + 1
        let initRes : (Except PError (Option Stmt)) × Nat :=
          match (tokAt tokens cursor).ttype with
          | TokenType.semicolon => (Except.ok none, cursor + 1)
          | TokenType.kwVar =>
              match pVarDecl fuel tokens (cursor + 1) with
              | (Except.error e, cursor) => (Except.error e, cursor)
              | (Except.ok varDecl, cursor) => (Except.ok (some varDecl), cursor)
          | _ =>
              match pExprStmt fuel tokens (cursor + 1) with
              | (Except.error e, cursor) => (Except.error e, cursor)
              | (Except.ok exprStmt, cursor) => (Except.ok (some exprStmt), cursor)
        match initRes with
        | (Except.error e, cursor) => (Except.error e, cursor)
        | (Except.ok initOpt, cursor) =>
            let condRes : (Except PError (Option Expr)) × Nat :=
              match (tokAt tokens cursor).ttype with
              | TokenType.semicolon => (Except.ok none, cursor + 1)
              | _ =>
                  match pExpression fuel tokens cursor with
                  | (Except.error e, cursor) => (Except.error e, cursor)
                  | (Except.ok condition, cursor) =>
                      if (tokAt tokens cursor).ttype ≠ TokenType.semicolon then
                        (Except.error (PError.expectedSemicolon
                          (tokAt tokens cursor).location), cursor)
                      else (Except.ok (some condition), cursor + 1)
            match condRes with
            | (Except.error e, cursor) => (Except.error e, cursor)
            | (Except.ok condOpt, cursor) =>
                let condition := condOpt.getD
                  (Expr.literal (tokAt tokens cursor).location Literal.true_)
                let incRes : (Except PError (Option Stmt)) × Nat :=
                  match (tokAt tokens cursor).ttype with
                  | TokenType.rightParen => (Except.ok none, cursor + 1)
                  | _ =>
                      match pExpression fuel tokens cursor with
                      | (Except.error e, cursor) => (Except.error e, cursor)
                      | (Except.ok expr, cursor) =>
                          if (tokAt tokens cursor).ttype ≠ TokenType.rightParen then
                            (Except.error (PError.expectedToken ")" "for"
                              (tokAt tokens cursor).location), cursor)
                          else
                            (Except.ok (some (Stmt.expression expr)), cursor + 1)
                match incRes with
                | (Except.error e, cursor) => (Except.error e, cursor)
                | (Except.ok incOpt, cursor) =>
                    match pStatement fuel tokens cursor with
                    | (Except.error e, cursor) => (Except.error e, cursor)
                    | (Except.ok body, cursor) =>
                        let body :=
                          match incOpt with
                          | some inc => Stmt.block [body, inc]
                          | none => body
                        let forLoop :=
                          match initOpt with
                          | some initS =>
                              Stmt.block [initS, Stmt.whileS condition body]
                          | none => Stmt.whileS condition body
                        (Except.ok forLoop, cursor)

termination_by structural fuel => fuel

/-- Parser::fun_stmt (parser.rs lines 417-509). -/
def pFunStmt : Nat → List TokenItem → Nat → (Except PError Stmt) × Nat
  | 0, _, cursor => (Except.error (PError.unexpectedToken "" ⟨0, 0⟩), cursor)
  | fuel + 1, tokens, cursor =>
      if (tokAt tokens cursor).ttype ≠ TokenType.identifier then
        (Except.error (PError.unexpectedToken (tokAt tokens cursor).lexeme
          (tokAt tokens cursor).location), cursor)
      else
        let name := (tokAt tokens cursor).lexeme
        let cursor := cursor + 1
        if (tokAt tokens cursor).ttype ≠ TokenType.leftParen then
          (Except.error (PError.unexpectedToken (tokAt tokens cursor).lexeme
            (tokAt tokens cursor).location), cursor)
        else
          let cursor := cursor + 1
          let paramsRes : (Except PError (List String)) × Nat :=
            if (tokAt tokens cursor).ttype ≠ TokenType.rightParen then
              if (tokAt tokens cursor).ttype = TokenType.identifier then
                pParamsLoop fuel tokens (cursor + 1)
                  [(tokAt tokens cursor).lexeme]
              else
                (Except.error (PError.expectedParameterName
                  (tokAt tokens cursor).location), cursor)
            else (Except.ok [], cursor)
          match paramsRes with
          | (Except.error e, cursor) => (Except.error e, cursor)
          | (Except.ok params, cursor) =>
              if (tokAt tokens cursor).ttype ≠ TokenType.rightParen then
                (Except.error (PError.expectedToken ")" "function"
                  (tokAt tokens cursor).location), cursor)
              else
                let cursor := cursor + 1
                if (tokAt tokens cursor).ttype ≠ TokenType.leftBrace then
                  (Except.error (PError.expectedToken "\x7b" "function"
                    (tokAt tokens cursor).location), cursor)
                else
                  match pBlock fuel tokens (cursor + 1) with
                  | (Except.error e, cursor) => (Except.error e, cursor)
                  | (Except.ok blockS, cursor) =>
                      (Except.ok (Stmt.funDecl name params blockS), cursor)

termination_by structural fuel => fuel

/-- The comma loop inside fun_stmt (parser.rs lines 452-474). -/
def pParamsLoop : Nat → List TokenItem → Nat → List String →
    (Except PError (List String)) × Nat
  | 0, _, cursor, params => (Except.ok params, cursor)
  | fuel + 1, tokens, cursor, params =>
      if cursor < tokens.length ∧
          (tokAt tokens cursor).ttype = TokenType.comma then
        if params.length ≥ 255 then
          (Except.error (PError.tooManyParameters
            (tokAt tokens cursor).location), cursor)
        else
          let cursor := cursor + 1
          if (tokAt tokens cursor).ttype = TokenType.identifier then
            pParamsLoop fuel tokens (cursor + 1)
              (params ++ [(tokAt tokens cursor).lexeme])
          else
            (Except.error (PError.expectedParameterName
              (tokAt tokens cursor).location), cursor)
      else (Except.ok params, cursor)

termination_by structural fuel => fuel

/-- Parser::block (parser.rs lines 511-536). -/
def pBlock : Nat → List TokenItem → Nat → (Except PError Stmt) × Nat
  | 0, _, cursor => (Except.error (PError.unexpectedToken "" ⟨0, 0⟩), cursor)
  | fuel + 1, tokens, cursor =>
      match pBlockLoop fuel tokens cursor [] with
      | (Except.error e, cursor) => (Except.error e, cursor)
      | (Except.ok stmts, cursor) =>
          if (tokAt tokens cursor).ttype ≠ TokenType.rightBrace then
            (Except.error (PError.unterminatedBrace
              (tokAt tokens cursor).location), cursor)
          else (Except.ok (Stmt.block stmts), cursor + 1)

termination_by structural fuel => fuel

/-- The statement loop inside block. -/
def pBlockLoop : Nat → List TokenItem → Nat → List Stmt →
    (Except PError (List Stmt)) × Nat
  | 0, _, cursor, stmts => (Except.ok stmts, cursor)
  | fuel + 1, tokens, cursor, stmts =>
      if cursor < tokens.length ∧
          (tokAt tokens cursor).ttype ≠ TokenType.rightBrace ∧
          (tokAt tokens cursor).ttype ≠ TokenType.eof then
        match pStatement fuel tokens cursor with
        | (Except.error e, cursor) => (Except.error e, cursor)
        | (Except.ok s, cursor) => pBlockLoop fuel tokens cursor (stmts ++ [s])
      else (Except.ok stmts, cursor)

termination_by structural fuel => fuel

/-- Parser::expression (parser.rs lines 538-540). -/
def pExpression : Nat → List TokenItem → Nat → (Except PError Expr) × Nat
  | 0, _, cursor => (Except.error (PError.unexpectedToken "" ⟨0, 0⟩), cursor)
  | fuel + 1, tokens, cursor => pAssignment fuel tokens cursor

termination_by structural fuel => fuel

/-- Parser::assignment (parser.rs lines 542-572). -/
def pAssignment : Nat → List TokenItem → Nat → (Except PError Expr) × Nat
  | 0, _, cursor => (Except.error (PError.unexpectedToken "" ⟨0, 0⟩), cursor)
  | fuel + 1, tokens, cursor =>
      match pEquality fuel tokens cursor with
      | (Except.error e, cursor) => (Except.error e, cursor)
      | (Except.ok expr, cursor) =>
          if (tokAt tokens cursor).ttype ≠ TokenType.equal then
            (Except.ok expr, cursor)
          else
            let assignmentLocation := (tokAt tokens cursor).location
            match pExpression fuel tokens (cursor + 1) with
            | (Except.error e, cursor) => (Except.error e, cursor)
            | (Except.ok value, cursor) =>
                match expr with
                | Expr.variableE location name =>
                    (Except.ok (Expr.assignment location name value), cursor)
                | _ =>
                    (Except.error
                      (PError.invalidAssignmentTarget assignmentLocation), cursor)

termination_by structural fuel => fuel

/-- Parser::equality: the binary_expr! macro over comparison with the
equality operators (parser.rs lines 47-73 and 574-583). -/
def pEquality : Nat → List TokenItem → Nat → (Except PError Expr) × Nat
  | 0, _, cursor => (Except.error (PError.unexpectedToken "" ⟨0, 0⟩), cursor)
  | fuel + 1, tokens, cursor =>
      match pComparison fuel tokens cursor with
      | (Except.error e, cursor) => (Except.error e, cursor)
      | (Except.ok left, cursor) => pEqualityLoop fuel tokens left cursor

termination_by structural fuel => fuel

/-- The while loop of the equality level. -/
def pEqualityLoop : Nat → List TokenItem → Expr → Nat →
    (Except PError Expr) × Nat
  | 0, _, left, cursor => (Except.ok left, cursor)
  | fuel + 1, tokens, left, newCursor =>
      let tt := (tokAt tokens newCursor).ttype
      if tt = TokenType.bangEq ∨ tt = TokenType.equalEq then
        match pComparison fuel tokens (newCursor + 1) with
        | (Except.error e, _) => (Except.error e, newCursor)
        | (Except.ok right, nextCursor) =>
            pEqualityLoop fuel tokens
              (Expr.binary (tokAt tokens nextCursor).location left tt right)
              nextCursor
      else (Except.ok left, newCursor)

termination_by structural fuel => fuel

/-- Parser::comparison (parser.rs lines 585-594). -/
def pComparison : Nat → List TokenItem → Nat → (Except PError Expr) × Nat
  | 0, _, cursor => (Except.error (PError.unexpectedToken "" ⟨0, 0⟩), cursor)
  | fuel + 1, tokens, cursor =>
      match pTerm fuel tokens cursor with
      | (Except.error e, cursor) => (Except.error e, cursor)
      | (Except.ok left, cursor) => pComparisonLoop fuel tokens left cursor

termination_by structural fuel => fuel

/-- The while loop of the comparison level. -/
def pComparisonLoop : Nat → List TokenItem → Expr → Nat →
    (Except PError Expr) × Nat
  | 0, _, left, cursor => (Except.ok left, cursor)
  | fuel + 1, tokens, left, newCursor =>
      let tt := (tokAt tokens newCursor).ttype
      if tt = TokenType.greater ∨ tt = TokenType.greaterEq ∨
          tt = TokenType.less ∨ tt = TokenType.lessEq then
        match pTerm fuel tokens (newCursor + 1) with
        | (Except.error e, _) => (Except.error e, newCursor)
        | (Except.ok right, nextCursor) =>
            pComparisonLoop fuel tokens
              (Expr.binary (tokAt tokens nextCursor).location left tt right)
              nextCursor
      else (Except.ok left, newCursor)

termination_by structural fuel => fuel

/-- Parser::term (parser.rs lines 596-605). -/
def pTerm : Nat → List TokenItem → Nat → (Except PError Expr) × Nat
  | 0, _, cursor => (Except.error (PError.unexpectedToken "" ⟨0, 0⟩), cursor)
  | fuel + 1, tokens, cursor =>
      match pFactor fuel tokens cursor with
      | (Except.error e, cursor) => (Except.error e, cursor)
      | (Except.ok left, cursor) => pTermLoop fuel tokens left cursor

termination_by structural fuel => fuel

/-- The while loop of the term level. -/
def pTermLoop : Nat → List TokenItem → Expr → Nat → (Except PError Expr) × Nat
  | 0, _, left, cursor => (Except.ok left, cursor)
  | fuel + 1, tokens, left, newCursor =>
      let tt := (tokAt tokens newCursor).ttype
      if tt = TokenType.minus ∨ tt = TokenType.plus then
        match pFactor fuel tokens (newCursor + 1) with
        | (Except.error e, _) => (Except.error e, newCursor)
        | (Except.ok right, nextCursor) =>
            pTermLoop fuel tokens
              (Expr.binary (tokAt tokens nextCursor).location left tt right)
              nextCursor
      else (Except.ok left, newCursor)

termination_by structural fuel => fuel

/-- Parser::factor (parser.rs lines 607-616). -/
def pFactor : Nat → List TokenItem → Nat → (Except PError Expr) × Nat
  | 0, _, cursor => (Except.error (PError.unexpectedToken "" ⟨0, 0⟩), cursor)
  | fuel + 1, tokens, cursor =>
      match pUnary fuel tokens cursor with
      | (Except.error e, cursor) => (Except.error e, cursor)
      | (Except.ok left, cursor) => pFactorLoop fuel tokens left cursor

termination_by structural fuel => fuel

/-- The while loop of the factor level. -/
def pFactorLoop : Nat → List TokenItem → Expr → Nat → (Except PError Expr) × Nat
  | 0, _, left, cursor => (Except.ok left, cursor)
  | fuel + 1, tokens, left, newCursor =>
      let tt := (tokAt tokens newCursor).ttype
      if tt = TokenType.slash ∨ tt = TokenType.star then
        match pUnary fuel tokens (newCursor + 1) with
        | (Except.error e, _) => (Except.error e, newCursor)
        | (Except.ok right, nextCursor) =>
            pFactorLoop fuel tokens
              (Expr.binary (tokAt tokens nextCursor).location left tt right)
              nextCursor
      else (Except.ok left, newCursor)

termination_by structural fuel => fuel

/-- Parser::unary (parser.rs lines 618-637). -/
def pUnary : Nat → List TokenItem → Nat → (Except PError Expr) × Nat
  | 0, _, cursor => (Except.error (PError.unexpectedToken "" ⟨0, 0⟩), cursor)
  | fuel + 1, tokens, cursor =>
      let tt := (tokAt tokens cursor).ttype
      if tt = TokenType.bang ∨ tt = TokenType.minus then
        match pUnary fuel tokens (cursor + 1) with
        | (Except.error e, cursor) => (Except.error e, cursor)
        | (Except.ok right, nextCursor) =>
            (Except.ok (Expr.unary (tokAt tokens cursor).location tt right),
              nextCursor)
      else pCall fuel tokens cursor

termination_by structural fuel => fuel

/-- Parser::call (parser.rs lines 639-693). -/
def pCall : Nat → List TokenItem → Nat → (Except PError Expr) × Nat
  | 0, _, cursor => (Except.error (PError.unexpectedToken "" ⟨0, 0⟩), cursor)
  | fuel + 1, tokens, cursor =>
      match pPrimary fuel tokens cursor with
      | (Except.error e, cursor) => (Except.error e, cursor)
      | (Except.ok callee, cursor) => pCallLoop fuel tokens callee cursor

termination_by structural fuel => fuel

/-- The call-suffix loop: as long as a parenthesis opens and the cursor
is before the final token, parse an argument list. -/
def pCallLoop : Nat → List TokenItem → Expr → Nat → (Except PError Expr) × Nat
  | 0, _, callee, cursor => (Except.ok callee, cursor)
  | fuel + 1, tokens, callee, cursor =>
      if cursor < tokens.length - 1 ∧
          (tokAt tokens cursor).ttype = TokenType.leftParen then
        let cursor := cursor + 1
        let argsRes : (Except PError (List Expr)) × Nat :=
          if (tokAt tokens cursor).ttype ≠ TokenType.rightParen then
            pArgsOuter fuel tokens cursor []
          else (Except.ok [], cursor)
        match argsRes with
        | (Except.error e, cursor) => (Except.error e, cursor)
        | (Except.ok arguments, cursor) =>
            if (tokAt tokens cursor).ttype ≠ TokenType.rightParen then
              (Except.error (PError.unterminatedParen
                (tokAt tokens cursor).location), cursor)
            else
              pCallLoop fuel tokens
                (Expr.call (tokAt tokens cursor).location callee arguments)
                (cursor + 1)
      else (Except.ok callee, cursor)

termination_by structural fuel => fuel

/-- The outer argument loop of Parser::call (parser.rs lines 649-675). -/
def pArgsOuter : Nat → List TokenItem → Nat → List Expr →
    (Except PError (List Expr)) × Nat
  | 0, _, cursor, args => (Except.ok args, cursor)
  | fuel + 1, tokens, cursor, args =>
      if cursor < tokens.length ∧
          (tokAt tokens cursor).ttype ≠ TokenType.rightParen ∧
          (tokAt tokens cursor).ttype ≠ TokenType.eof then
        match pExpression fuel tokens cursor with
        | (Except.error e, cursor) => (Except.error e, cursor)
        | (Except.ok arg, cursor) =>
            match pArgsInner fuel tokens cursor (args ++ [arg]) with
            | (Except.error e, cursor) => (Except.error e, cursor)
            | (Except.ok args, cursor) => pArgsOuter fuel tokens cursor args
      else (Except.ok args, cursor)

termination_by structural fuel => fuel

/-- The inner comma loop of Parser::call (parser.rs lines 658-674). -/
def pArgsInner : Nat → List TokenItem → Nat → List Expr →
    (Except PError (List Expr)) × Nat
  | 0, _, cursor, args => (Except.ok args, cursor)
  | fuel + 1, tokens, cursor, args =>
      if cursor < tokens.length ∧
          (tokAt tokens cursor).ttype = TokenType.comma then
        if args.length ≥ 255 then
          (Except.error (PError.tooManyArguments
            (tokAt tokens cursor).location), cursor)
        else
          match pExpression fuel tokens (cursor + 1) with
          | (Except.error e, cursor) => (Except.error e, cursor)
          | (Except.ok arg, cursor) => pArgsInner fuel tokens cursor (args ++ [arg])
      else (Except.ok args, cursor)

termination_by structural fuel => fuel

/-- Parser::primary (parser.rs lines 695-742); a literal token carries
its value (the source unwraps it; the embedded token lists always carry
one), and a parenthesised group is parsed with equality. -/
def pPrimary : Nat → List TokenItem → Nat → (Except PError Expr) × Nat
  | 0, _, cursor => (Except.error (PError.unexpectedToken "" ⟨0, 0⟩), cursor)
  | fuel + 1, tokens, cursor =>
      match (tokAt tokens cursor).ttype with
      | TokenType.number =>
          (Except.ok (Expr.literal (tokAt tokens cursor).location
            ((tokAt tokens cursor).literal.getD Literal.nil)), cursor + 1)
      | TokenType.stringTok =>
          (Except.ok (Expr.literal (tokAt tokens cursor).location
            ((tokAt tokens cursor).literal.getD Literal.nil)), cursor + 1)
      | TokenType.kwTrue =>
          (Except.ok (Expr.literal (tokAt tokens cursor).location
            ((tokAt tokens cursor).literal.getD Literal.nil)), cursor + 1)
      | TokenType.kwFalse =>
          (Except.ok (Expr.literal (tokAt tokens cursor).location
            ((tokAt tokens cursor).literal.getD Literal.nil)), cursor + 1)
      | TokenType.kwNil =>
          (Except.ok (Expr.literal (tokAt tokens cursor).location
            ((tokAt tokens cursor).literal.getD Literal.nil)), cursor + 1)
      | TokenType.identifier =>
          (Except.ok (Expr.variableE (tokAt tokens cursor).location
            (tokAt tokens cursor).lexeme), cursor + 1)
      | TokenType.leftParen =>
          match pEquality fuel tokens (cursor + 1) with
          | (Except.error e, nextCursor) => (Except.error e, nextCursor)
          | (Except.ok expression, nextCursor) =>
              if (tokAt tokens nextCursor).ttype = TokenType.rightParen then
                (Except.ok expression, nextCursor + 1)
              else
                (Except.error (PError.unterminatedParen
                  (tokAt tokens cursor).location), nextCursor)
      | _ =>
          (Except.error (PError.unexpectedToken (tokAt tokens cursor).lexeme
            (tokAt tokens cursor).location), cursor)

termination_by structural fuel => fuel

end

/-- Parser::synchronize (parser.rs lines 744-761). -/
def pSynchronize (tokens : List TokenItem) : Nat → Nat → Nat
  | 0, cursor => cursor
  | fuel + 1, cursor =>
      if cursor < tokens.length then
        match (tokAt tokens cursor).ttype with
        | TokenType.semicolon => cursor + 1
        | TokenType.kwClass | TokenType.kwFun | TokenType.kwVar
        | TokenType.kwFor | TokenType.kwIf | TokenType.kwWhile
        | TokenType.kwPrint | TokenType.kwReturn => cursor
        | _ => pSynchronize tokens fuel (cursor + 1)
      else cursor

/-- Fuel large enough for every parse below. -/
def pFuel (tokens : List TokenItem) : Nat := tokens.length * 8 + 64

/-- Parser::parse (parser.rs lines 83-103): statements until EoF, with
synchronisation after an error; all statements if no error occurred,
else all errors. -/
def parse (source : List TokenItem) : Except (List PError) (List Stmt) :=
  let (statements, errors) := go (source.length + 1) 0 [] []
  if errors.isEmpty then Except.ok statements else Except.error errors
where
  go : Nat → Nat → List Stmt → List PError → List Stmt × List PError
    | 0, _, statements, errors => (statements, errors)
    | fuel + 1, cursor, statements, errors =>
        if cursor < source.length ∧
            (tokAt source cursor).ttype ≠ TokenType.eof then
          match pStatement (pFuel source) source cursor with
          | (Except.ok s, nextCursor) =>
              go fuel nextCursor (statements ++ [s]) errors
          | (Except.error e, nextCursor) =>
              go fuel (pSynchronize source (source.length + 1) (nextCursor + 1))
                statements (errors ++ [e])
        else (statements, errors)

end TW

namespace TW

/-- FunctionType (jlox/src/interpreter.rs lines 24-28). -/
inductive FunctionType where
  | fnFunction
  | fnNone
deriving DecidableEq, Repr

/-- Interpreter errors (jlox/src/interpreter.rs lines 12-22). -/
inductive IError where
  | runtimeError (message : String) (location : SourceLocation)
  | parseErrorE (location : SourceLocation)
deriving DecidableEq, Repr

/-- The Display message of the environment error
(treewalk/src/environment.rs lines 7-13), produced when a lookup at a
resolved depth fails. -/
def envErrMsg (name : String) : String :=
  "Resolver Error: Tried to access variable " ++ name ++
    " but it wasn't defined in the expected depth"

/-- Chain-lookup fuel: every heap the interpreter builds has parent
links pointing to earlier frames, so the heap length bounds every
chain. -/
def hFuel (heap : EnvHeap) : Nat := heap.length + 1

mutual

/-- EvaluateExpr for Expr (jlox/src/interpreter.rs lines 39-280).  The
result carries the literal, the environment heap (environments are
mutated through Rc of RefCell in the source) and the lines printed while
evaluating (function bodies may print).  Note the Binary arm: both
operands are evaluated before the operator is inspected, so and/or pick
a side but do not short-circuit the evaluation of the right operand. -/
def evaluate : Nat → Expr → Nat → EnvHeap → Locals → List FunctionType →
    Except IError (Literal × EnvHeap × List String)
  | 0, e, _, _, _, _ => Except.error (IError.parseErrorE e.location)
  | fuel + 1, e, env, heap, locals, fnStack =>
      match e with
      | Expr.binary location left operator right => do
          let (l, heap, out1) ← evaluate fuel left env heap locals fnStack
          let (r, heap, out2) ← evaluate fuel right env heap locals fnStack
          let out := out1 ++ out2
          match operator with
          | TokenType.equalEq => pure (Literal.ofBool (Literal.eqL l r), heap, out)
          | TokenType.bangEq => pure (Literal.ofBool (!Literal.eqL l r), heap, out)
          | TokenType.greater =>
              match Literal.cmpL l r with
              | none => Except.error (IError.runtimeError
                  "Cannot compare values. Operands must both be numbers" location)
              | some comp =>
                  pure (Literal.ofBool (comp = Ordering.gt), heap, out)
          | TokenType.less =>
              match Literal.cmpL l r with
              | none => Except.error (IError.runtimeError
                  "Cannot compare values. Operands must both be numbers" location)
              | some comp =>
                  pure (Literal.ofBool (comp = Ordering.lt), heap, out)
          | TokenType.greaterEq =>
              match Literal.cmpL l r with
              | none => Except.error (IError.runtimeError
                  "Cannot compare values. Operands must both be numbers" location)
              | some comp =>
                  pure (Literal.ofBool (comp = Ordering.gt ∨ comp = Ordering.eq),
                    heap, out)
          | TokenType.lessEq =>
              match Literal.cmpL l r with
              | none => Except.error (IError.runtimeError
                  "Cannot compare values. Operands must both be numbers" location)
              | some comp =>
                  pure (Literal.ofBool (comp = Ordering.lt ∨ comp = Ordering.eq),
                    heap, out)
          | TokenType.plus =>
              match l, r with
              | Literal.number a, Literal.number b =>
                  pure (Literal.number (F64.add a b), heap, out)
              | Literal.stringL a, Literal.stringL b =>
                  pure (Literal.stringL (a ++ b), heap, out)
              | Literal.stringL a, b =>
                  pure (Literal.stringL (a ++ b.display), heap, out)
              | a, Literal.stringL b =>
                  pure (Literal.stringL (a.display ++ b), heap, out)
              | _, _ => Except.error (IError.runtimeError
                  "Cannot add values.  Operands must be both numbers or both strings"
                  location)
          | TokenType.minus =>
              match l, r with
              | Literal.number a, Literal.number b =>
                  pure (Literal.number (F64.sub a b), heap, out)
              | _, _ => Except.error (IError.runtimeError
                  "Cannot subtract values. Operands must be both numbers" location)
          | TokenType.star =>
              match l, r with
              | Literal.number a, Literal.number b =>
                  pure (Literal.number (F64.mul a b), heap, out)
              | _, _ => Except.error (IError.runtimeError
                  "Cannot multiply values. Operands must be both numbers" location)
          | TokenType.slash =>
              match l, r with
              | Literal.number a, Literal.number b =>
                  if F64.beq b (F64.finite 0) then
                    Except.error (IError.runtimeError "Cannot divide by zero"
                      location)
                  else pure (Literal.number (F64.div a b), heap, out)
              | _, _ => Except.error (IError.runtimeError
                  "Cannot divide values. Operands must be both numbers" location)
          | TokenType.kwOr =>
              if l.is_truthy then pure (l, heap, out) else pure (r, heap, out)
          | TokenType.kwAnd =>
              if !l.is_truthy then pure (l, heap, out) else pure (r, heap, out)
          | _ => Except.error (IError.parseErrorE location)
      | Expr.unary location operator right => do
          let (r, heap, out) ← evaluate fuel right env heap locals fnStack
          match operator with
          | TokenType.minus =>
              match r with
              | Literal.number n => pure (Literal.number (F64.neg n), heap, out)
              | _ => Except.error (IError.runtimeError "Cannot negate a non-number"
                  location)
          | TokenType.bang => pure (Literal.ofBool (!r.is_truthy), heap, out)
          | _ => Except.error (IError.parseErrorE location)
      | Expr.literal _ value => pure (value, heap, [])
      | Expr.variableE location name =>
          match localsGet locals location with
          | some d =>
              match envGetAt (hFuel heap) heap env name d with
              | Except.error _ =>
                  Except.error (IError.runtimeError (envErrMsg name) location)
              | Except.ok valOpt =>
                  match valOpt with
                  | some v => pure (v, heap, [])
                  | none => Except.error (IError.runtimeError
                      ("Uninitialized variable `" ++ name ++ "` used") location)
          | none =>
              match envGet (hFuel heap) heap env name with
              | none => Except.error (IError.runtimeError
                  ("Undefined variable `" ++ name ++ "`") location)
              | some valOpt =>
                  match valOpt with
                  | some v => pure (v, heap, [])
                  | none => Except.error (IError.runtimeError
                      ("Uninitialized variable `" ++ name ++ "` used") location)
      | Expr.assignment location name value => do
          let (v, heap, out) ← evaluate fuel value env heap locals fnStack
          match localsGet locals location with
          | some d =>
              match envUpdateAt (hFuel heap) heap env name v d with
              | Except.error _ =>
                  Except.error (IError.runtimeError (envErrMsg name) location)
              | Except.ok heap => pure (v, heap, out)
          | none =>
              match envUpdate (hFuel heap) heap env name v with
              | none => Except.error (IError.runtimeError
                  ("Undefined variable `" ++ name ++ "`") location)
              | some heap => pure (v, heap, out)
      | Expr.call location callee arguments => do
          let (calleeV, heap, out1) ← evaluate fuel callee env heap locals fnStack
          match calleeV with
          | Literal.function params body closure =>
              if arguments.length ≠ params.length then
                Except.error (IError.runtimeError
                  ("Expected " ++ toString params.length ++ " arguments bug got "
                    ++ toString arguments.length) location)
              else do
                let (args, heap, out2) ← evalArgs fuel arguments env heap locals
                  fnStack
                let newEnv := heap.length
                let heap := heap ++ [({ values := [], parent := some closure } :
                  Frame)]
                let heap := (params.zip args).foldl
                  (fun h pa => envDefine h newEnv pa.1 (some pa.2)) heap
                let ((v, _), heap, out3) ← execute fuel body newEnv heap locals
                  (fnStack ++ [FunctionType.fnFunction])
                pure (v.getD Literal.nil, heap, out1 ++ out2 ++ out3)
          | _ => Except.error (IError.runtimeError
              "Can only call functions and classes." location)

termination_by structural fuel => fuel

/-- The left-to-right argument evaluation of the Call arm. -/
def evalArgs : Nat → List Expr → Nat → EnvHeap → Locals → List FunctionType →
    Except IError (List Literal × EnvHeap × List String)
  | 0, _, _, heap, _, _ => pure ([], heap, [])
  | _ + 1, [], _, heap, _, _ => pure ([], heap, [])
  | fuel + 1, arg :: rest, env, heap, locals, fnStack => do
      let (v, heap, out1) ← evaluate fuel arg env heap locals fnStack
      let (vs, heap, out2) ← evalArgs fuel rest env heap locals fnStack
      pure (v :: vs, heap, out1 ++ out2)

termination_by structural fuel => fuel

/-- ExecuteStmt for Stmt (jlox/src/interpreter.rs lines 293-389): the
result pairs an optional value with the is-return flag. -/
def execute : Nat → Stmt → Nat → EnvHeap → Locals → List FunctionType →
    Except IError ((Option Literal × Bool) × EnvHeap × List String)
  | 0, _, _, _, _, _ => Except.error (IError.parseErrorE ⟨0, 0⟩)
  | fuel + 1, s, env, heap, locals, fnStack =>
      match s with
      | Stmt.expression expr => do
          let (v, heap, out) ← evaluate fuel expr env heap locals fnStack
          pure ((some v, false), heap, out)
      | Stmt.print expr => do
          let (v, heap, out) ← evaluate fuel expr env heap locals fnStack
          pure ((none, false), heap, out ++ [v.display])
      | Stmt.varDecl name _ initOpt => do
          let (value, heap, out) ←
            match initOpt with
            | some expr => do
                let (v, heap, out) ← evaluate fuel expr env heap locals fnStack
                pure ((some v : Option Literal), heap, out)
            | none => pure ((none : Option Literal), heap, ([] : List String))
          pure (((none : Option Literal), false), envDefine heap env name value,
            out)
      | Stmt.ifS condition thenBranch elseBranch => do
          let (c, heap, out) ← evaluate fuel condition env heap locals fnStack
          if c.is_truthy then do
            let (r, heap, out2) ← execute fuel thenBranch env heap locals fnStack
            pure (r, heap, out ++ out2)
          else
            match elseBranch with
            | some e => do
                let (r, heap, out2) ← execute fuel e env heap locals fnStack
                pure (r, heap, out ++ out2)
            | none => pure (((none : Option Literal), false), heap, out)
      | Stmt.whileS condition body => do
          let (c, heap, out) ← evaluate fuel condition env heap locals fnStack
          if c.is_truthy then do
            let (res, heap, out2) ← execute fuel body env heap locals fnStack
            if res.2 then pure (res, heap, out ++ out2)
            else do
              let (res, heap, out3) ← execute fuel (Stmt.whileS condition body)
                env heap locals fnStack
              pure (res, heap, out ++ out2 ++ out3)
          else pure (((none : Option Literal), false), heap, out)
      | Stmt.block stmts =>
          let newEnv := heap.length
          let heap := heap ++ [({ values := [], parent := some env } : Frame)]
          execBlock fuel stmts newEnv heap locals fnStack
            ((none : Option Literal), false) []
      | Stmt.funDecl name params body =>
          let closure := env
          pure (((none : Option Literal), false),
            envDefine heap env name (some (Literal.function params body closure)),
            [])
      | Stmt.ret val =>
          match fnStack.getLast? with
          | some FunctionType.fnNone =>
              Except.error (IError.runtimeError
                "Can't return from outside a function" val.location)
          | _ => do
              let (v, heap, out) ← evaluate fuel val env heap locals fnStack
              pure ((some v, true), heap, out)

termination_by structural fuel => fuel

/-- The statement loop of the Block arm (interpreter.rs lines 351-364):
run the statements in the fresh environment, stop at a return, and
discard a non-return final result. -/
def execBlock : Nat → List Stmt → Nat → EnvHeap → Locals →
    List FunctionType → (Option Literal × Bool) → List String →
    Except IError ((Option Literal × Bool) × EnvHeap × List String)
  | 0, _, _, heap, _, _, res, out =>
      pure ((if res.2 then res else (none, false)), heap, out)
  | _ + 1, [], _, heap, _, _, res, out =>
      pure ((if res.2 then res else (none, false)), heap, out)
  | fuel + 1, s :: rest, env, heap, locals, fnStack, _, out => do
      let (res, heap, out2) ← execute fuel s env heap locals fnStack
      if res.2 then pure (res, heap, out ++ out2)
      else execBlock fuel rest env heap locals fnStack res (out ++ out2)

termination_by structural fuel => fuel

end

/-- Stmt::location (ast.rs lines 82-101), needed by the Return arm. -/
def Stmt.location : Stmt → SourceLocation
  | Stmt.expression expr => expr.location
  | Stmt.print expr => expr.location
  | Stmt.varDecl _ location _ => location
  | Stmt.ifS condition _ _ => condition.location
  | Stmt.whileS condition _ => condition.location
  | Stmt.block stmts =>
      match stmts with
      | s :: _ => s.location
      | [] => ⟨0, 0⟩
  | Stmt.funDecl _ _ body => body.location
  | Stmt.ret expr => expr.location

/-- The evaluation fuel used for whole programs below. -/
def eFuel : Nat := 2000

/-- Interpreter::interpret (jlox/src/interpreter.rs lines 412-424): a
fresh root environment, each top-level statement executed with a fresh
function stack holding only None; the value of the last statement is
the result. -/
def interpret (locals : Locals) (stmts : List Stmt) :
    Except IError (Option Literal × EnvHeap × List String) :=
  go stmts 0 ([({ values := [], parent := none } : Frame)]) none []
where
  go : List Stmt → Nat → EnvHeap → Option Literal → List String →
      Except IError (Option Literal × EnvHeap × List String)
    | [], _, heap, res, out => pure (res, heap, out)
    | s :: rest, env, heap, _, out => do
        let (r, heap, out2) ← execute eFuel s env heap locals
          [FunctionType.fnNone]
        go rest env heap r.1 (out ++ out2)

/-- The pipeline error of the tree path (treewalk/src/lib.rs lines
21-34); the scanner stage is upstream of the embedded pipeline. -/
inductive LoxError where
  | parserE (errors : List PError)
  | runtime (e : IError)
deriving DecidableEq, Repr

/-- Lox::run (treewalk/src/lib.rs lines 45-56) from the token stream on:
parse (aborting on parse errors), resolve (whose reported errors are
printed but never abort), then interpret unconditionally with the
resolved locals; the final statement value, when present, is printed
after the program output.  The returned strings are the stdout lines;
output printed before a runtime error is dropped together with it, as
no claim below inspects it. -/
def loxRun (tokens : List TokenItem) : Except LoxError (List String) :=
  match parse tokens with
  | Except.error errs => Except.error (LoxError.parserE errs)
  | Except.ok ast =>
      let (locals, resolverMsgs) := resolve ast
      match interpret locals ast with
      | Except.error e => Except.error (LoxError.runtime e)
      | Except.ok (res, _, out) =>
          match res with
          | some v => Except.ok (resolverMsgs ++ out ++ [v.display])
          | none => Except.ok (resolverMsgs ++ out)

end TW

namespace TW

/-- Walking exactly depth parent links from an environment, the
spec-side reading of get_at: none when the chain is shorter than the
depth. -/
def ancestorAt : Nat → EnvHeap → Nat → Nat → Option Nat
  | 0, _, _, _ => none
  | _ + 1, _, env, 0 => some env
  | fuel + 1, heap, env, depth + 1 =>
      match (heap.get? env).bind Frame.parent with
      | some parent => ancestorAt fuel heap parent depth
      | none => none

/-- The Variable evaluation contract, written out as the amended claim
states it: a location resolved to depth d walks exactly d parent links
(a shorter chain is the depth error) and then searches the chain from
that ancestor on; an unresolved location searches the chain starting
from the CURRENT environment (which ends at the global frame), not the
global environment alone.  A binding stored as None is the
uninitialized-variable error; a name absent from the searched chain is
the depth error in the resolved case and the undefined-variable error in
the unresolved case. -/
def varContract (heap : EnvHeap) (env : Nat) (locals : Locals)
    (location : SourceLocation) (name : String) : Except IError Literal :=
  match localsGet locals location with
  | some d =>
      match ancestorAt (hFuel heap) heap env d with
      | none => Except.error (IError.runtimeError (envErrMsg name) location)
      | some a =>
          match envGet (heap.length + 1) heap a name with
          | none => Except.error (IError.runtimeError (envErrMsg name) location)
          | some (some v) => Except.ok v
          | some none => Except.error (IError.runtimeError
              ("Uninitialized variable `" ++ name ++ "` used") location)
  | none =>
      match envGet (hFuel heap) heap env name with
      | none => Except.error (IError.runtimeError
          ("Undefined variable `" ++ name ++ "`") location)
      | some (some v) => Except.ok v
      | some none => Except.error (IError.runtimeError
          ("Uninitialized variable `" ++ name ++ "` used") location)

/-- A one-line token without a literal payload. -/
def tk (tt : TokenType) (lx : String) (p : Nat) : TokenItem :=
  ⟨tt, lx, none, ⟨1, p⟩⟩

/-- A number token carrying its parsed literal. -/
def tkN (lx : String) (p : Nat) : TokenItem :=
  ⟨TokenType.number, lx, some (Literal.number (F64.parseLexeme lx)), ⟨1, p⟩⟩

/-- An identifier token. -/
def tkI (lx : String) (p : Nat) : TokenItem :=
  ⟨TokenType.identifier, lx, none, ⟨1, p⟩⟩

/-- The token stream of the program: print 1 / 0 ; -/
def div0Toks : List TokenItem :=
  [tk TokenType.kwPrint "print" 0, tkN "1" 6, tk TokenType.slash "/" 8,
   tkN "0" 10, tk TokenType.semicolon ";" 11, tk TokenType.eof "" 12]

/-- The token stream of the program with a duplicate declaration in one
block (a resolver error) that still runs and prints:
var a = 1 and var a = 2 and print a, inside one block. -/
def dupToks : List TokenItem :=
  [tk TokenType.leftBrace "\x7b" 0,
   tk TokenType.kwVar "var" 2, tkI "a" 6, tk TokenType.equal "=" 8, tkN "1" 10,
   tk TokenType.semicolon ";" 11,
   tk TokenType.kwVar "var" 13, tkI "a" 17, tk TokenType.equal "=" 19, tkN "2" 21,
   tk TokenType.semicolon ";" 22,
   tk TokenType.kwPrint "print" 24, tkI "a" 30, tk TokenType.semicolon ";" 31,
   tk TokenType.rightBrace "\x7d" 33, tk TokenType.eof "" 34]

/-- The AST Parser::parse produces for dupToks. -/
def dupAst : List Stmt :=
  [Stmt.block
    [Stmt.varDecl "a" ⟨1, 11⟩
      (some (Expr.literal ⟨1, 10⟩ (Literal.number (F64.finite 1)))),
     Stmt.varDecl "a" ⟨1, 22⟩
      (some (Expr.literal ⟨1, 21⟩ (Literal.number (F64.finite 2)))),
     Stmt.print (Expr.variableE ⟨1, 30⟩ "a")]]

/-- The resolver diagnostics a token stream gives rise to (empty when
the parse already fails). -/
def resolverReport (tokens : List TokenItem) : List String :=
  match parse tokens with
  | Except.ok ast => (resolve ast).2
  | Except.error _ => []

/-- The token stream of: for ( i = 0 ; i < 3 ; i = i + 1 ) print i ; --
a for statement whose initializer is an expression statement. -/
def forToks : List TokenItem :=
  [tk TokenType.kwFor "for" 0, tk TokenType.leftParen "(" 4,
   tkI "i" 5, tk TokenType.equal "=" 7, tkN "0" 9, tk TokenType.semicolon ";" 10,
   tkI "i" 12, tk TokenType.less "<" 14, tkN "3" 16, tk TokenType.semicolon ";" 17,
   tkI "i" 19, tk TokenType.equal "=" 21, tkI "i" 23, tk TokenType.plus "+" 25,
   tkN "1" 27, tk TokenType.rightParen ")" 28,
   tk TokenType.kwPrint "print" 30, tkI "i" 36, tk TokenType.semicolon ";" 37,
   tk TokenType.eof "" 38]

/-- The token stream of the desugared form of forToks:
one block holding i = 0 ; and while ( i < 3 ) with the body block
holding print i ; and i = i + 1 ; -/
def forDesugaredToks : List TokenItem :=
  [tk TokenType.leftBrace "\x7b" 0,
   tkI "i" 2, tk TokenType.equal "=" 4, tkN "0" 6, tk TokenType.semicolon ";" 7,
   tk TokenType.kwWhile "while" 9, tk TokenType.leftParen "(" 15,
   tkI "i" 16, tk TokenType.less "<" 18, tkN "3" 20, tk TokenType.rightParen ")" 21,
   tk TokenType.leftBrace "\x7b" 23,
   tk TokenType.kwPrint "print" 25, tkI "i" 31, tk TokenType.semicolon ";" 32,
   tkI "i" 34, tk TokenType.equal "=" 36, tkI "i" 38, tk TokenType.plus "+" 40,
   tkN "1" 42, tk TokenType.semicolon ";" 43,
   tk TokenType.rightBrace "\x7d" 45, tk TokenType.rightBrace "\x7d" 47,
   tk TokenType.eof "" 48]

/-- The AST the desugared source parses to: the block of the assignment
and the while loop over the two-statement body block. -/
def forDesugaredAst : List Stmt :=
  [Stmt.block
    [Stmt.expression (Expr.assignment ⟨1, 2⟩ "i"
      (Expr.literal ⟨1, 6⟩ (Literal.number (F64.finite 0)))),
     Stmt.whileS
      (Expr.binary ⟨1, 21⟩ (Expr.variableE ⟨1, 16⟩ "i") TokenType.less
        (Expr.literal ⟨1, 20⟩ (Literal.number (F64.finite 3))))
      (Stmt.block
        [Stmt.print (Expr.variableE ⟨1, 31⟩ "i"),
         Stmt.expression (Expr.assignment ⟨1, 34⟩ "i"
          (Expr.binary ⟨1, 43⟩ (Expr.variableE ⟨1, 38⟩ "i") TokenType.plus
            (Expr.literal ⟨1, 42⟩ (Literal.number (F64.finite 1)))))])]]

/-- The token stream of: for ( var i = 0 ; i < 3 ; i = i + 1 ) print i ;
-- the variable-declaration initializer form, which the parser does
handle. -/
def forVarToks : List TokenItem :=
  [tk TokenType.kwFor "for" 0, tk TokenType.leftParen "(" 4,
   tk TokenType.kwVar "var" 5, tkI "i" 9, tk TokenType.equal "=" 11, tkN "0" 13,
   tk TokenType.semicolon ";" 14,
   tkI "i" 16, tk TokenType.less "<" 18, tkN "3" 20, tk TokenType.semicolon ";" 21,
   tkI "i" 23, tk TokenType.equal "=" 25, tkI "i" 27, tk TokenType.plus "+" 29,
   tkN "1" 31, tk TokenType.rightParen ")" 32,
   tk TokenType.kwPrint "print" 34, tkI "i" 40, tk TokenType.semicolon ";" 41,
   tk TokenType.eof "" 42]

/-- The statement forVarToks parses to: exactly the desugared shape, an
enclosing block of the declaration and the while loop whose body block
runs the original body then the increment. -/
def forVarAst : Stmt :=
  Stmt.block
    [Stmt.varDecl "i" ⟨1, 14⟩
      (some (Expr.literal ⟨1, 13⟩ (Literal.number (F64.finite 0)))),
     Stmt.whileS
      (Expr.binary ⟨1, 21⟩ (Expr.variableE ⟨1, 16⟩ "i") TokenType.less
        (Expr.literal ⟨1, 20⟩ (Literal.number (F64.finite 3))))
      (Stmt.block
        [Stmt.print (Expr.variableE ⟨1, 40⟩ "i"),
         Stmt.expression (Expr.assignment ⟨1, 23⟩ "i"
          (Expr.binary ⟨1, 32⟩ (Expr.variableE ⟨1, 27⟩ "i") TokenType.plus
            (Expr.literal ⟨1, 31⟩ (Literal.number (F64.finite 1)))))])]

/-- The expression false and ( 1 / 0 ): a falsy left operand and a right
operand whose evaluation raises the division-by-zero error. -/
def andExpr : Expr :=
  Expr.binary ⟨1, 0⟩ (Expr.literal ⟨1, 1⟩ Literal.false_) TokenType.kwAnd
    (Expr.binary ⟨1, 2⟩ (Expr.literal ⟨1, 3⟩ (Literal.number (F64.finite 1)))
      TokenType.slash (Expr.literal ⟨1, 4⟩ (Literal.number (F64.finite 0))))

/-- The expression true or ( 1 / 0 ): a truthy left operand and an
erroring right operand. -/
def orExpr : Expr :=
  Expr.binary ⟨1, 0⟩ (Expr.literal ⟨1, 1⟩ Literal.true_) TokenType.kwOr
    (Expr.binary ⟨1, 2⟩ (Expr.literal ⟨1, 3⟩ (Literal.number (F64.finite 1)))
      TokenType.slash (Expr.literal ⟨1, 4⟩ (Literal.number (F64.finite 0))))

/-- A two-frame heap: the global frame binds nothing; frame 1, a block
or call frame whose parent is the global frame, binds x to 1. -/
def c7heap : EnvHeap :=
  [⟨[], none⟩, ⟨[("x", some (Literal.number (F64.finite 1)))], some 0⟩]

end TW

namespace BC

/-- The token stream the scanner hands the compiler for:
print 2 <= 2 ; -/
def tokLE : List Token :=
  [⟨TokenType.kwPrint, "print", 1⟩, ⟨TokenType.number, "2", 1⟩,
   ⟨TokenType.lessEqual, "<=", 1⟩, ⟨TokenType.number, "2", 1⟩,
   ⟨TokenType.semicolon, ";", 1⟩, ⟨TokenType.eof, "", 1⟩]

/-- The chunk compiled from tokLE: the two constants, Less, Not, Print,
Return. -/
def chunkLE : Chunk :=
  ⟨[1, 0, 1, 1, 14, 11, 15, 0],
   [Value.number (F64.finite 2), Value.number (F64.finite 2)],
   [1, 1, 1, 1, 1, 1, 1, 0]⟩

/-- A chunk that pushes Nil, applies Not, prints, returns. -/
def notNilChunk : Chunk := ⟨[8, 11, 15, 0], [], [1, 1, 1, 1]⟩

/-- The fresh state the VM starts in. -/
def initState : VMState := ⟨[], [], 0, []⟩

/-- A chunk whose first instruction is SetGlobal of the name constant at
index 0. -/
def sgChunk : Chunk := ⟨[19, 0, 0], [Value.constString "x"], [1, 1, 1]⟩

/-- A state about to run sgChunk with 5 on the stack and x already
defined. -/
def sgState : VMState := ⟨[Value.number (F64.finite 5)], [("x", Value.nil)], 0, []⟩

/-- A chunk with a full 256-entry constant pool, about to have a global
name added. -/
def c256 : Chunk := ⟨[], List.replicate 256 (Value.number (F64.finite 0)), []⟩

/-- A parser state whose current token is an identifier followed by a
semicolon, as var_declaration sees it right after matching the var
keyword in the source var name ; -/
def pVarState (name : String) (ln : Nat) : Parser :=
  ⟨[⟨TokenType.semicolon, ";", ln⟩, ⟨TokenType.eof, "", ln⟩],
   ⟨TokenType.identifier, name, ln⟩, ⟨TokenType.kwVar, "var", ln⟩, false, false⟩

/-- A parser state whose current token is an identifier followed by a
semicolon, about to be compiled as a global read. -/
def pGetState (name : String) (ln : Nat) : Parser :=
  ⟨[⟨TokenType.semicolon, ";", ln⟩, ⟨TokenType.eof, "", ln⟩],
   ⟨TokenType.identifier, name, ln⟩, ⟨TokenType.kwPrint, "print", ln⟩, false,
   false⟩

/-- A parser state whose current token is an identifier followed by an
equals sign and nil, about to be compiled as a global assignment. -/
def pSetState (name : String) (ln : Nat) : Parser :=
  ⟨[⟨TokenType.equal, "=", ln⟩, ⟨TokenType.kwNil, "nil", ln⟩,
    ⟨TokenType.semicolon, ";", ln⟩, ⟨TokenType.eof, "", ln⟩],
   ⟨TokenType.identifier, name, ln⟩, ⟨TokenType.kwPrint, "print", ln⟩, false,
   false⟩

end BC

namespace TW

/-- The tree pipeline from a parsed program on (the tail of Lox::run):
resolve, collecting the printed resolver diagnostics, then ALWAYS run
the interpreter with the resolved locals; the resolver messages precede
the program output, and the last statement value, when present, is
printed after it. -/
def runFromAst (ast : List Stmt) : Except LoxError (List String) :=
  let (locals, resolverMsgs) := resolve ast
  match interpret locals ast with
  | Except.error e => Except.error (LoxError.runtime e)
  | Except.ok (res, _, out) =>
      match res with
      | some v => Except.ok (resolverMsgs ++ out ++ [v.display])
      | none => Except.ok (resolverMsgs ++ out)

end TW

/-!
The claims.  C1, C2, C3, C4 and C9 evaluate the embedded code at the
inputs on which it contradicts the specification; C5 and C7 refute the
claim as stated and prove the nearby statement that does hold; C6, C8
and C10 are confirmed.
-/

/-- C1: the bytecode compiler emits Less-then-Not for a LessEqual
operator and Greater-then-Not for GreaterEqual, the OPPOSITE of the
specified desugaring (Greater,Not for LessEqual; Less,Not for
GreaterEqual).  Consequently the code compiled from print 2 <= 2 ;
is Constant Constant Less Not Print Return and the VM prints false,
where the spec desugaring Bool(not (2 > 2)) requires true (the inverted
Not opcode evaluates Less-then-Not to plain less-than). -/
theorem c1_lessEqual_emits_less_not :
    BC.Parser.binaryOpcodes BC.TokenType.lessEqual =
      some (BC.OpCode.less, some BC.OpCode.not_) ∧
    BC.Parser.binaryOpcodes BC.TokenType.greaterEqual =
      some (BC.OpCode.greater, some BC.OpCode.not_) ∧
    BC.compile BC.tokLE = (true, BC.chunkLE) ∧
    BC.vmRun 100 BC.chunkLE BC.initState =
      some (Except.ok ⟨[], [], 7, ["false"]⟩) := by
  exact ⟨rfl, rfl, by decide, by decide⟩

/-- C2: executing Not pushes Bool true exactly when the popped value is
TRUTHY, the opposite of the claim: Value::is_truthy answers true on Nil
and Bool(false), so Bool(not is_truthy v) is the truthiness of v rather
than its negation.  Running Nil Not Print Return prints false, where the
claim requires Not on Nil to push Bool(true). -/
theorem c2_not_pushes_truthiness :
    BC.vmRun 100 BC.notNilChunk BC.initState =
      some (Except.ok ⟨[], [], 3, ["false"]⟩) ∧
    BC.Value.is_truthy BC.Value.nil = true ∧
    BC.Value.specTruthy BC.Value.nil = false := by
  exact ⟨by decide, rfl, rfl⟩

/-- C3: Scanner::match_advance answers false when the next character IS
the probed equals sign and consumes-and-answers true when it is NOT, so
scan_token produces the one-character token exactly when the next
character is an equals sign: the source text consisting of a bang then
an equals sign scans as Bang then Equal, and a bang followed by the
letter x scans as BangEqual with the two-character lexeme.  The claim
(two-character token exactly when the next character is an equals sign)
states the opposite behavior. -/
theorem c3_two_char_operator_inverted :
    BC.scanTokens "!=" =
      [⟨BC.TokenType.bang, "!", 1⟩, ⟨BC.TokenType.equal, "=", 1⟩,
       ⟨BC.TokenType.eof, "", 1⟩] ∧
    BC.scanTokens "!x" =
      [⟨BC.TokenType.bangEqual, "!x", 1⟩, ⟨BC.TokenType.eof, "", 1⟩] := by
  exact ⟨by decide, by decide⟩

/-- C4: the tree evaluator evaluates BOTH operands of a Binary
expression before dispatching on the operator, so and with a falsy left
operand (and or with a truthy one) still evaluates the right operand:
evaluating false and (1 / 0) raises the division-by-zero runtime error
instead of returning the left value false, and true or (1 / 0) likewise
errors instead of returning true. -/
theorem c4_and_or_not_short_circuit :
    TW.evaluate TW.eFuel TW.andExpr 0 [⟨[], none⟩] [] [TW.FunctionType.fnNone] =
      Except.error (TW.IError.runtimeError "Cannot divide by zero" ⟨1, 2⟩) ∧
    TW.evaluate TW.eFuel TW.orExpr 0 [⟨[], none⟩] [] [TW.FunctionType.fnNone] =
      Except.error (TW.IError.runtimeError "Cannot divide by zero" ⟨1, 2⟩) ∧
    TW.Literal.is_truthy TW.Literal.false_ = false := by
  refine ⟨by rfl, by rfl, rfl⟩

/-- C6: dividing by the exact zero is the division-by-zero runtime error
on the tree path, while the bytecode Divide opcode divides with IEEE
semantics and no zero check: the tree pipeline on print 1 / 0 ; aborts
with the error, Value::divide maps 1 and 0 to positive infinity, and the
full bytecode pipeline on the same source prints inf. -/
theorem c6_div_zero_tree_errors_bytecode_inf :
    TW.loxRun TW.div0Toks =
      Except.error (TW.LoxError.runtime
        (TW.IError.runtimeError "Cannot divide by zero" ⟨1, 11⟩)) ∧
    BC.Value.divide (BC.Value.number (F64.finite 1))
        (BC.Value.number (F64.finite 0)) =
      some (BC.Value.number F64.inf) ∧
    BC.interpret "print 1 / 0;" = some (Except.ok ⟨[], [], 6, ["inf"]⟩) := by
  refine ⟨by rfl, rfl, by decide⟩

/-- C9, the refutation: the parser hands the expression-statement
initializer of a for statement a cursor one past where the expression
starts, so for ( i = 0 ; i < 3 ; i = i + 1 ) print i ; fails to parse
with an expected-semicolon error at the equals sign instead of producing
the desugared while loop, although the desugared source itself parses
fine; with a var initializer the desugared shape does come out. -/
theorem c9_for_expr_init_off_by_one :
    TW.pStatement (TW.pFuel TW.forToks) TW.forToks 0 =
      (Except.error (TW.PError.expectedSemicolon ⟨1, 7⟩), 3) ∧
    TW.parse TW.forToks =
      Except.error [TW.PError.expectedSemicolon ⟨1, 7⟩,
        TW.PError.expectedSemicolon ⟨1, 28⟩] ∧
    TW.parse TW.forDesugaredToks = Except.ok TW.forDesugaredAst ∧
    TW.pStatement (TW.pFuel TW.forVarToks) TW.forVarToks 0 =
      (Except.ok TW.forVarAst, 20) := by
  refine ⟨by rfl, by rfl, by rfl, by rfl⟩

/-- C5, the refutation: the block program var a = 1 then var a = 2 then
print a makes the resolver report DuplicateVariable, yet the pipeline
still runs the interpreter, which prints 2 -- so a reported static
error does NOT stop the tree path. -/
theorem c5_counterexample_resolver_error_still_runs :
    TW.resolverReport TW.dupToks =
      ["Resolver Error: Duplicate variable 'a' found in scope at line 1:22"] ∧
    TW.loxRun TW.dupToks = Except.ok
      ["Resolver Error: Duplicate variable 'a' found in scope at line 1:22",
       "2"] := ⟨by rfl, by rfl⟩

/-- C5 as amended: resolver errors are printed diagnostics only; on any
successfully parsed program, even one whose resolver pass reports at
least one static error, Lox::run still proceeds to the interpreter with
the locals map built so far (runFromAst), rather than stopping. -/
theorem c5_resolver_errors_reported_but_run_proceeds
    (tokens : List TW.TokenItem) (ast : List TW.Stmt)
    (hp : TW.parse tokens = Except.ok ast)
    (_hr : (TW.resolve ast).2 ≠ []) :
    TW.loxRun tokens = TW.runFromAst ast := by
  unfold TW.loxRun
  rw [hp]
  rfl

/-- Witness for c5_resolver_errors_reported_but_run_proceeds at the
duplicate-declaration program. -/
theorem c5_amended_witness : TW.loxRun TW.dupToks = TW.runFromAst TW.dupAst :=
  c5_resolver_errors_reported_but_run_proceeds TW.dupToks TW.dupAst (by rfl)
    (by decide)

/-- Environment::get_at decomposes into walking exactly depth parent
links and then a chain lookup from the ancestor reached: the shared
lemma behind the Variable contract. -/
theorem envGetAt_eq_ancestor (fuel : Nat) (heap : TW.EnvHeap) (env : Nat)
    (name : String) (depth : Nat) :
    TW.envGetAt fuel heap env name depth =
      (match TW.ancestorAt fuel heap env depth with
       | none => Except.error ()
       | some a =>
           match TW.envGet (heap.length + 1) heap a name with
           | some v => Except.ok v
           | none => Except.error ()) := by
  induction fuel generalizing env depth with
  | zero => rfl
  | succ f ih =>
      cases depth with
      | zero => simp [TW.envGetAt, TW.ancestorAt]
      | succ d =>
          simp only [TW.envGetAt, TW.ancestorAt]
          rw [if_pos (Nat.succ_pos d)]
          cases hpar : (heap.get? env).bind TW.Frame.parent with
          | none => rfl
          | some parent => simpa using ih parent d

/-- C7, the refutation: with an empty locals map (as in the REPL, or
after a resolver failure) and the variable x bound only in the current
non-global frame, evaluation succeeds with 1 by searching the chain from
the CURRENT environment, while the global environment does not bind x at
all -- so the unresolved case is not a lookup in the global environment
as claimed, under which this expression would be an undefined-variable
error. -/
theorem c7_counterexample_fallback_not_global :
    TW.evaluate TW.eFuel (TW.Expr.variableE ⟨1, 0⟩ "x") 1 TW.c7heap []
        [TW.FunctionType.fnNone] =
      Except.ok (TW.Literal.number (F64.finite 1), TW.c7heap, []) ∧
    TW.envGet (TW.hFuel TW.c7heap) TW.c7heap 0 "x" = none := ⟨by rfl, by rfl⟩

/-- C7 as amended: evaluating a Variable follows varContract -- a
location resolved at depth d walks exactly d parent links and searches
the chain from that ancestor on (chain shorter than d, or name absent
from that chain, is the depth runtime error; a None binding is the
uninitialized error); an unresolved location searches the chain starting
at the CURRENT environment, ending at the global frame (absence is the
undefined-variable error, a None binding the uninitialized error). -/
theorem c7_variable_lookup_contract (fuel : Nat) (heap : TW.EnvHeap)
    (env : Nat) (locals : TW.Locals) (location : TW.SourceLocation)
    (name : String) (fnStack : List TW.FunctionType) :
    TW.evaluate (fuel + 1) (TW.Expr.variableE location name) env heap locals
        fnStack =
      (TW.varContract heap env locals location name).map
        (fun v => (v, heap, ([] : List String))) := by
  simp only [TW.evaluate, TW.varContract]
  cases TW.localsGet locals location with
  | none =>
      dsimp only
      cases TW.envGet (TW.hFuel heap) heap env name with
      | none => rfl
      | some vo => cases vo <;> rfl
  | some d =>
      dsimp only
      rw [envGetAt_eq_ancestor]
      cases TW.ancestorAt (TW.hFuel heap) heap env d with
      | none => rfl
      | some a =>
          dsimp only
          cases TW.envGet (heap.length + 1) heap a name with
          | none => rfl
          | some vo => cases vo <;> rfl

/-- C8: executing SetGlobal with operand naming n fails with the runtime
error exactly when n is not yet in the globals map (only the Checking
trace line is printed), and on success sets globals at n to the current
top of the stack WITHOUT popping -- the stack of the next state is the
unchanged stack, so the assigned value stays on top and the assignment
acts as an expression. -/
theorem c8_setGlobal_update_without_pop (chunk : BC.Chunk) (st : BC.VMState)
    (idx : Nat) (name : String) (v : BC.Value) (rest : List BC.Value)
    (hop : chunk.code.get? st.ip = some BC.OpCode.setGlobal.toByte)
    (hidx : chunk.code.get? (st.ip + 1) = some idx)
    (hlt : idx < chunk.constants.length)
    (hname : (chunk.read_constant idx).as_str = name)
    (hstack : st.stack = v :: rest) :
    (BC.globalsGet st.globals name = none →
      BC.vmStep chunk st = BC.StepRes.fail
        { st with output := st.output ++ ["Checking: " ++ name] }) ∧
    (∀ w, BC.globalsGet st.globals name = some w →
      BC.vmStep chunk st = BC.StepRes.next
        { stack := st.stack,
          globals := BC.globalsInsert st.globals name v,
          ip := st.ip + 2,
          output := st.output ++ ["Checking: " ++ name, "Setting: " ++ name] }) := by
  have hob : BC.OpCode.ofByte BC.OpCode.setGlobal.toByte = BC.OpCode.setGlobal :=
    rfl
  constructor
  · intro hg
    simp only [BC.vmStep, hop, hidx, hob, hname, if_pos hlt, hg]
  · intro w hg
    simp only [BC.vmStep, hop, hidx, hob, hname, if_pos hlt, hg, hstack]
    rw [List.append_assoc]
    rfl

/-- Witness for c8_setGlobal_update_without_pop: SetGlobal of x over the
globals map holding x updates it to the 5 on top of the stack, leaving
the stack unchanged. -/
theorem c8_setGlobal_witness : BC.vmStep BC.sgChunk BC.sgState =
    BC.StepRes.next
      ⟨[BC.Value.number (F64.finite 5)], [("x", BC.Value.number (F64.finite 5))],
       2, ["Checking: x", "Setting: x"]⟩ := by
  have h := (c8_setGlobal_update_without_pop BC.sgChunk BC.sgState 0 "x"
    (BC.Value.number (F64.finite 5)) [] rfl rfl (by decide) rfl rfl).2
    BC.Value.nil rfl
  simpa using h

/-- C10: the operand the compiler writes after DefineGlobal, GetGlobal
and SetGlobal is the name-constant pool index written as u8, that is
reduced modulo 256, with no ConstantLong form (the emitted bytes are
exactly the opcode and one operand byte), so on a pool already holding
at least 256 entries the operand denotes a different slot than the one
holding the name; literal constants instead go through write_constant,
which at such indices emits the two-byte big-endian ConstantLong that
still denotes the true slot. -/
theorem c10_global_operand_reduced_mod_256 (c : BC.Chunk) (name : String)
    (ln : Nat) :
    ((BC.Parser.var_declaration 1 (BC.pVarState name ln) c).2.code =
      c.code ++ [BC.OpCode.nil.toByte, BC.OpCode.defineGlobal.toByte,
        c.constants.length % 256]) ∧
    ((BC.Parser.var_declaration 1 (BC.pVarState name ln) c).2.constants =
      c.constants ++ [BC.Value.constString name]) ∧
    ((BC.Parser.parse_precedence 2 BC.Precedence.pAssignment
        (BC.pGetState name ln) c).2.code =
      c.code ++ [BC.OpCode.getGlobal.toByte, c.constants.length % 256]) ∧
    ((BC.Parser.parse_precedence 3 BC.Precedence.pAssignment
        (BC.pSetState name ln) c).2.code =
      c.code ++ [BC.OpCode.nil.toByte, BC.OpCode.setGlobal.toByte,
        c.constants.length % 256]) ∧
    (256 ≤ c.constants.length →
      c.constants.length % 256 ≠ c.constants.length) ∧
    (∀ (v : BC.Value) (ln2 : Nat), 256 ≤ c.constants.length →
      (c.write_constant v ln2).code =
        c.code ++ [BC.OpCode.constantLong.toByte,
          c.constants.length / 256 % 256, c.constants.length % 256]) := by
  refine ⟨?_, ?_, ?_, ?_, ?_, ?_⟩
  · simp [BC.Parser.var_declaration, BC.Parser.consume, BC.Parser.advance,
      BC.Parser.advance.skipErrors, BC.Parser.match_token, BC.Parser.nextToken,
      BC.pVarState, BC.Chunk.write, BC.Chunk.add_constant, BC.OpCode.toByte]
  · simp [BC.Parser.var_declaration, BC.Parser.consume, BC.Parser.advance,
      BC.Parser.advance.skipErrors, BC.Parser.match_token, BC.Parser.nextToken,
      BC.pVarState, BC.Chunk.write, BC.Chunk.add_constant, BC.OpCode.toByte]
  · simp [BC.Parser.parse_precedence, BC.Parser.infixLoop, BC.Parser.consume,
      BC.Parser.advance, BC.Parser.advance.skipErrors, BC.Parser.match_token,
      BC.Parser.nextToken, BC.pGetState, BC.Chunk.write, BC.Chunk.add_constant,
      BC.OpCode.toByte, BC.Precedence.can_assign, BC.Precedence.rank,
      BC.TokenType.precendence]
  · simp [BC.Parser.parse_precedence, BC.Parser.infixLoop, BC.Parser.consume,
      BC.Parser.advance, BC.Parser.advance.skipErrors, BC.Parser.match_token,
      BC.Parser.nextToken, BC.pSetState, BC.Chunk.write, BC.Chunk.add_constant,
      BC.OpCode.toByte, BC.Precedence.can_assign, BC.Precedence.rank,
      BC.TokenType.precendence]
  · intro h
    omega
  · intro v ln2 h
    simp [BC.Chunk.write_constant, BC.Chunk.add_constant, BC.Chunk.write,
      BC.break_index, BC.OpCode.toByte, Nat.not_lt.mpr h]

/-- Witness for c10_global_operand_reduced_mod_256 at a chunk whose pool
already holds 256 constants: the DefineGlobal operand byte is 0, which
no longer denotes slot 256 where the name landed. -/
theorem c10_witness :
    (BC.Parser.var_declaration 1 (BC.pVarState "x" 1) BC.c256).2.code =
      [8, 17, 0] ∧ (256 : Nat) % 256 ≠ 256 := by
  have h := c10_global_operand_reduced_mod_256 BC.c256 "x" 1
  refine ⟨?_, ?_⟩
  · have h1 := h.1
    simpa [BC.c256] using h1
  · exact h.2.2.2.2.1 (by decide)
